import Mathlib

/-!
Verification development for the ATDW random-table generator (ATDW.py).

The Python source is shallowly embedded: CSV cell values become the inductive
type PyVal, pandas rows and modifier dictionaries become association lists,
Streamlit session state becomes the structure SState, and every random draw
(row sampling, die rolls, random.choice) is threaded explicitly through
oracle parameters, so that each function is a pure, executable Lean
definition mirroring the corresponding Python function line by line.
Python exceptions that the claims depend on are modelled with Except.
-/

/-- Model of a Python value as it appears in a pandas row or a modifier
dictionary: None, float NaN, bool, int, or str.  (Integral floats from CSV
columns are represented by vint, matching the is_integer special case in the
fmt helpers of ATDW.py.) -/
inductive PyVal where
  | vnone
  | vnan
  | vbool (b : Bool)
  | vint (n : Int)
  | vstr (s : String)
  deriving DecidableEq, Repr

/-- Modelled Python exceptions that the embedded code can raise. -/
inductive PyExc where
  | unboundLocal
  | keyError
  | indexError
  | valueError
  deriving DecidableEq, Repr

/-- Decidable equality of modelled call results, for concrete evaluations. -/
instance : DecidableEq (Except PyExc String) := fun x y =>
  match x, y with
  | .error a, .error b => decidable_of_iff (a = b) (by simp)
  | .error _, .ok _ => isFalse Except.noConfusion
  | .ok _, .error _ => isFalse Except.noConfusion
  | .ok a, .ok b => decidable_of_iff (a = b) (by simp)

/-- The pd.isna test: true exactly on None and NaN. -/
def pyIsNa : PyVal → Bool
  | .vnone => true
  | .vnan => true
  | _ => false

/-- Python truthiness (bool(v)) for the modelled values.  NaN is truthy. -/
def pyTruthy : PyVal → Bool
  | .vnone => false
  | .vnan => true
  | .vbool b => b
  | .vint n => n ≠ 0
  | .vstr s => s ≠ ""

/-- Python str(v) for the modelled values. -/
def pyStr : PyVal → String
  | .vnone => "None"
  | .vnan => "nan"
  | .vbool b => if b then "True" else "False"
  | .vint n => toString n
  | .vstr s => s

/-- Python str.strip(): drop leading and trailing whitespace. -/
def pyStrip (s : String) : String :=
  String.mk (((s.data.dropWhile Char.isWhitespace).reverse.dropWhile Char.isWhitespace).reverse)

/-- Python str.lower() on the ASCII range. -/
def pyLower (s : String) : String :=
  String.mk (s.data.map Char.toLower)

/-- Python str.upper() on the ASCII range. -/
def pyUpper (s : String) : String :=
  String.mk (s.data.map Char.toUpper)

/-- Python str.startswith. -/
def pyStartsWith (s pre : String) : Bool :=
  pre.data.isPrefixOf s.data

/-- Fuelled splitter behind pySplitOn; the fuel bounds the step count. -/
def splitSepFuel (sep : List Char) : Nat → List Char → List Char → List (List Char)
  | 0, cs, acc => [acc.reverse ++ cs]
  | fuel + 1, cs, acc =>
      match cs with
      | [] => [acc.reverse]
      | c :: rest =>
          if sep.isPrefixOf (c :: rest) ∧ sep ≠ [] then
            acc.reverse :: splitSepFuel sep fuel ((c :: rest).drop sep.length) []
          else splitSepFuel sep fuel rest (c :: acc)

/-- Python s.split(sep) for a non-empty separator. -/
def pySplitOn (s sep : String) : List String :=
  (splitSepFuel sep.data (s.data.length + 1) s.data []).map String.mk

/-- Numeric value of a list of decimal digit characters. -/
def digitsVal (ds : List Char) : Nat :=
  ds.foldl (fun acc c => acc * 10 + (c.toNat - 48)) 0

/-- Parse of a signed run of decimal digits, the shape accepted by Python
int(str) after stripping: an optional sign followed by one or more digits. -/
def parseSignedDigits : List Char → Option Int
  | [] => none
  | '+' :: rest => if rest ≠ [] ∧ rest.all Char.isDigit then some (digitsVal rest) else none
  | '-' :: rest => if rest ≠ [] ∧ rest.all Char.isDigit then some (-(digitsVal rest : Int)) else none
  | l => if l ≠ [] ∧ l.all Char.isDigit then some (digitsVal l) else none

/-- Python int(s) on a string: strip whitespace, then an optionally signed
digit run; any other shape raises ValueError (here: none). -/
def pyParseInt (s : String) : Option Int :=
  parseSignedDigits (pyStrip s).data

/-- Truncation-toward-zero parse of a simple decimal literal, the shapes of
float(s) relevant to the CSV data: optional sign, digits, optional fractional
part, at least one digit overall.  Used to model int(float(s)). -/
def parseDecimalTrunc (l : List Char) : Option Int :=
  let core : List Char → Option Nat := fun cs =>
    let intPart := cs.takeWhile Char.isDigit
    let rest := cs.dropWhile Char.isDigit
    match rest with
    | [] => if intPart ≠ [] then some (digitsVal intPart) else none
    | '.' :: frac =>
        if frac.all Char.isDigit ∧ (intPart ≠ [] ∨ frac ≠ []) then some (digitsVal intPart)
        else none
    | _ => none
  match l with
  | '+' :: rest => (core rest).map (fun n => (n : Int))
  | '-' :: rest => (core rest).map (fun n => -(n : Int))
  | _ => (core l).map (fun n => (n : Int))

/-- Model of _safe_int (ATDW.py lines 1173-1187): int(float(str(val).strip()))
with any exception mapped to the default. -/
def safe_int (val : PyVal) (default : Int) : Int :=
  let s := pyStrip (pyStr val)
  if s = "" then default
  else match parseDecimalTrunc s.data with
    | some n => n
    | none => default

/-- Model of the idiom int(v or 0) guarded by try/except (TypeError,
ValueError) -> 0, which ATDW.py uses for every modifier read. -/
def safeIntOr0 (v : PyVal) : Int :=
  if pyTruthy v = false then 0
  else match v with
    | .vint n => n
    | .vbool b => if b then 1 else 0
    | .vstr s => (pyParseInt s).getD 0
    | _ => 0

/-- Association-list model of a Python dict or pandas Series with string
keys (first occurrence wins on lookup, matching unique dict keys). -/
abbrev Dict := List (String × PyVal)

/-- Lookup of a key: the dict.get / Series.get access. -/
def dictFind (d : Dict) (k : String) : Option PyVal :=
  match d with
  | [] => none
  | (k', v) :: rest => if k' = k then some v else dictFind rest k

/-- Python d.get(k, default). -/
def rowGet (d : Dict) (k : String) (default : PyVal) : PyVal :=
  (dictFind d k).getD default

/-- Python row.get(k) with its implicit None default. -/
def rowGetN (d : Dict) (k : String) : PyVal :=
  rowGet d k .vnone

/-- Membership test: the Python in operator on a dict or Series index. -/
def rowHas (d : Dict) (k : String) : Bool :=
  (dictFind d k).isSome

/-- Occurrence of one character list as a contiguous run of another. -/
def listInfix (needle : List Char) : List Char → Bool
  | [] => needle.isEmpty
  | c :: rest => needle.isPrefixOf (c :: rest) || listInfix needle rest

/-- Substring test: the Python in operator on strings. -/
def strContains (hay needle : String) : Bool :=
  listInfix needle.data hay.data


/-- Single-quote character as a string, used to build the inline error
strings of roll_table. -/
def sqt : String :=
  String.singleton (Char.ofNat 39)

/-- One mission-log entry: the dict with text and note written by add_to_log. -/
structure LogEntry where
  text : String
  note : String
  deriving DecidableEq, Repr

/-- Persistent pools: the session dict from group id to list of strings. -/
abbrev Pools := List (Int × List String)

/-- Lookup of a pool with the [] default of persistent. get(group_id, []). -/
def poolGet (p : Pools) (g : Int) : List String :=
  match p with
  | [] => []
  | (k, v) :: rest => if k = g then v else poolGet rest g

/-- Membership of a group id in the pools dict. -/
def poolMem (p : Pools) (g : Int) : Bool :=
  match p with
  | [] => false
  | (k, _) :: rest => if k = g then true else poolMem rest g

/-- Dict write persistent[g] = v: update the existing entry in place, or
append a new entry at the end (Python dict insertion order). -/
def poolSet (p : Pools) (g : Int) (v : List String) : Pools :=
  match p with
  | [] => [(g, v)]
  | (k, x) :: rest => if k = g then (k, v) :: rest else (k, x) :: poolSet rest g v

/-- Session state of ATDW.py after ensure_state, with every key the claims
touch modelled as a typed field. -/
structure SState where
  persistent : Pools
  log : List LogEntry
  damage_flat_modifier : Int
  int_stat_override : Option Int
  role_mods : Option Dict
  current_enemy_role : Option String
  unique_trait_mods : Dict
  unique_trait_desc : Option String
  suppress_enemy_ability : Bool
  last_stat_block_row : Option Dict
  last_stat_block_label : Option String
  size_roll : Option Int
  current_size_text : Option String
  swarm_all_targets : Bool
  deriving DecidableEq

/-- Freshly initialised session state, as ensure_state creates it. -/
def initState : SState where
  persistent := []
  log := []
  damage_flat_modifier := 0
  int_stat_override := none
  role_mods := none
  current_enemy_role := none
  unique_trait_mods := []
  unique_trait_desc := none
  suppress_enemy_ability := false
  last_stat_block_row := none
  last_stat_block_label := none
  size_roll := none
  current_size_text := none
  swarm_all_targets := false

/-- Model of add_to_persistent (ATDW.py lines 146-153): append text to the
numbered pool, creating it first when absent; None group ids do nothing. -/
def add_to_persistent (group_id : Option Int) (text : String) (σ : SState) : SState :=
  match group_id with
  | none => σ
  | some g => { σ with persistent := poolSet σ.persistent g (poolGet σ.persistent g ++ [text]) }

/-- Model of clear_persistent (ATDW.py lines 155-159): the pool becomes []
when present; absent pools are untouched. -/
def clear_persistent (group_id : Int) (σ : SState) : SState :=
  if poolMem σ.persistent group_id then
    { σ with persistent := poolSet σ.persistent group_id [] }
  else σ

/-- Model of add_to_log (ATDW.py lines 161-167): append a structured entry
with the given text and an empty note. -/
def add_to_log (text : String) (σ : SState) : SState :=
  { σ with log := σ.log ++ [{ text := text, note := "" }] }

/-- Model of remove_persistent_items (ATDW.py lines 1189-1213): drop from one
pool the items containing any of the given substrings or starting with any of
the given prefixes. -/
def remove_persistent_items (group_id : Int) (containsAny : List String)
    (startsWithAny : List String) (σ : SState) : SState :=
  if poolMem σ.persistent group_id = false then σ
  else
    let before := poolGet σ.persistent group_id
    let after := before.filter (fun s =>
      ¬ (containsAny.any (fun tok => strContains s tok)
          ∨ startsWithAny.any (fun tok => pyStartsWith s tok)))
    { σ with persistent := poolSet σ.persistent group_id after }

/-- Segments of a reactions cell: text.split(";"), each piece stripped, blank
pieces dropped (ATDW.py lines 61-62). -/
def reactionSegments (s : String) : List String :=
  ((pySplitOn s ";").map pyStrip).filter (fun seg => seg ≠ "")

/-- Match of one segment against the anchored pattern bracket-status-rest of
parse_randomize_reactions: the segment must start with an opening bracket, the
lazy status group runs to the first closing bracket (a dot never crosses a
newline), then greedy whitespace, then the rest of the line. -/
def segMatch (seg : String) : Option (String × String) :=
  match seg.data with
  | '[' :: rest =>
      let status := rest.takeWhile (fun ch => ch ≠ ']' ∧ ch ≠ '\n')
      let remainder := rest.drop status.length
      match remainder with
      | ']' :: after =>
          let afterWs := after.dropWhile Char.isWhitespace
          some (String.mk status, String.mk (afterWs.takeWhile (fun ch => ch ≠ '\n')))
      | _ => none
  | _ => none

/-- Options of one matched segment: rest.split(" OR "), stripped, blanks
dropped (ATDW.py line 76). -/
def segOptions (rest : String) : List String :=
  ((pySplitOn rest " OR ").map pyStrip).filter (fun opt => opt ≠ "")

/-- Model of parse_randomize_reactions (ATDW.py lines 52-80).  The random
choice of one option per status consumes one value of the oracle list cs;
an oracle value x picks option number x mod length. -/
def parse_randomize_reactions (text : PyVal) (cs : List Nat) : List String :=
  match text with
  | .vstr s =>
      if pyStrip s = "" then []
      else
        let rec go : List String → List Nat → List String
          | [], _ => []
          | seg :: segs, picks =>
              match segMatch seg with
              | none => go segs picks
              | some (status0, rest0) =>
                  let status := pyStrip status0
                  let rest := pyStrip rest0
                  if rest = "" then go segs picks
                  else
                    let options := segOptions rest
                    if options = [] then
                      ("- **[" ++ status ++ "]** " ++ rest) :: go segs picks
                    else
                      let choice := options.getD (picks.headD 0 % options.length) ""
                      ("- **[" ++ status ++ "]** " ++ choice) :: go segs picks.tail
        go (reactionSegments s) cs
  | _ => []

/-- Model of roll_int_from_expression (ATDW.py lines 82-108), with the dice
outcomes drawn from the oracle list: the i-th die of size d shows
1 + (dice i mod d).  A die of size zero makes random.randint raise. -/
def roll_int_from_expression (expr : PyVal) (dice : List Nat) : Except PyExc Int :=
  let s := pyUpper (pyStrip (pyStr expr))
  if s = "" then .ok 0
  else
    let parsed : Option (Nat × Bool × Nat × Nat) :=
      let cs := s.data
      let base := cs.takeWhile Char.isDigit
      let r1 := cs.dropWhile Char.isDigit
      if base = [] then none
      else
        let r1' := r1.dropWhile Char.isWhitespace
        match r1' with
        | sign :: r2 =>
            if sign = '+' ∨ sign = '-' then
              let r2' := r2.dropWhile Char.isWhitespace
              let num := r2'.takeWhile Char.isDigit
              let r3 := r2'.dropWhile Char.isDigit
              if num = [] then none
              else match r3 with
                | 'D' :: r4 =>
                    let die := r4.takeWhile Char.isDigit
                    let r5 := r4.dropWhile Char.isDigit
                    if die ≠ [] ∧ r5 = [] then
                      some (digitsVal base, sign = '+', digitsVal num, digitsVal die)
                    else none
                | _ => none
            else none
        | [] => none
    match parsed with
    | some (base, pos, numDice, dieSize) =>
        if numDice ≥ 1 ∧ dieSize = 0 then .error .valueError
        else
          let total : Int := (List.range numDice).foldl
            (fun acc i => acc + (if pos then 1 else -1) * (1 + (dice.getD i 0 % dieSize) : Int))
            (base : Int)
          .ok total
    | none =>
        match pyParseInt s with
        | some n => .ok n
        | none => .ok 0

/-- The fmt helper of the stat_block branch (ATDW.py lines 636-641): empty
string for NaN/None, decimal text for integers, str otherwise. -/
def fmtCell (v : PyVal) : String :=
  if pyIsNa v then "" else pyStr v

/-- Parse of the base damage expression against the anchored pattern of
apply_damage_dice_modifier (ATDW.py line 676): optional opening parenthesis,
optional digit run, a D (case-insensitive), a digit run, optional closing
parenthesis, arbitrary tail.  Returns (dice count, die size, tail). -/
def parseBaseDice (cs : List Char) : Option (Nat × Nat × List Char) :=
  let afterParen := match cs with
    | '(' :: rest => rest
    | l => l
  let numDigits := afterParen.takeWhile Char.isDigit
  let r1 := afterParen.drop numDigits.length
  match r1 with
  | d :: r2 =>
      if d = 'D' ∨ d = 'd' then
        let dieDigits := r2.takeWhile Char.isDigit
        let r3 := r2.drop dieDigits.length
        if dieDigits = [] then none
        else
          let tail := match r3 with
            | ')' :: r4 => r4
            | l => l
          some ((if numDigits = [] then 1 else digitsVal numDigits), digitsVal dieDigits, tail)
      else none
  | [] => none

/-- Parse of the dice modifier against the anchored pattern of
apply_damage_dice_modifier (ATDW.py line 677): sign, optional whitespace,
optional digit run, a D, a digit run, end of string. -/
def parseModDice (cs : List Char) : Option (Bool × Nat × Nat) :=
  match cs with
  | sign :: r1 =>
      if sign = '+' ∨ sign = '-' then
        let r1' := r1.dropWhile Char.isWhitespace
        let numDigits := r1'.takeWhile Char.isDigit
        let r2 := r1'.drop numDigits.length
        match r2 with
        | d :: r3 =>
            if d = 'D' ∨ d = 'd' then
              let dieDigits := r3.takeWhile Char.isDigit
              let r4 := r3.drop dieDigits.length
              if dieDigits ≠ [] ∧ r4 = [] then
                some (sign = '+', (if numDigits = [] then 1 else digitsVal numDigits), digitsVal dieDigits)
              else none
            else none
        | [] => none
      else none
  | [] => none

/-- Model of apply_damage_dice_modifier (ATDW.py lines 670-704): rewrite the
dice count of the base expression when the die sizes agree, clamped below at
one die; append the modifier textually when they disagree; pass non-matching
expressions through unchanged. -/
def apply_damage_dice_modifier (baseExpr diceModExpr : String) : String :=
  let base := pyStrip baseExpr
  let dm := pyStrip diceModExpr
  if base = "" ∨ dm = "" then baseExpr
  else
    match parseBaseDice base.data, parseModDice dm.data with
    | some (num, die, tail), some (pos, modNum, modDie) =>
        if modDie ≠ die then baseExpr ++ " " ++ diceModExpr
        else
          let numNew : Int := if pos then (num : Int) + modNum else (num : Int) - modNum
          let numNew := if numNew < 1 then 1 else numNew
          let body := toString numNew ++ "D" ++ toString (die : Int)
          let body := if pyStartsWith base "(" then "(" ++ body ++ ")" else body
          body ++ String.mk tail
    | _, _ => baseExpr

/-- Leftmost match of the trailing-flat-term search pattern sign-digits-end
(ATDW.py line 728) on a stripped string: the earliest sign character followed
by nothing but digits.  Returns (prefix, sign, digits). -/
def searchTrailingFlat : List Char → Option (List Char × Char × List Char)
  | [] => none
  | c :: rest =>
      if (c = '+' ∨ c = '-') ∧ rest ≠ [] ∧ rest.all Char.isDigit then some ([], c, rest)
      else (searchTrailingFlat rest).map (fun t => (c :: t.1, t.2.1, t.2.2))

/-- Rendering of a combined flat term (ATDW.py lines 737-742): omitted at
zero, plus-prefixed when positive, bare when negative. -/
def flatTail (n : Int) : String :=
  if n = 0 then "" else if n > 0 then "+" ++ toString n else toString n

/-- Flat-modifier splice of adjust_damage_str (ATDW.py lines 725-752): replace
a trailing +N / -N term by the term for the adjusted value, or append the
modifier when no trailing flat term exists. -/
def spliceFlatMod (s : String) (mod : Int) : String :=
  let sClean := pyStrip s
  match searchTrailingFlat sClean.data with
  | some (pre, sign, ds) =>
      let baseN : Int := if sign = '-' then -(digitsVal ds : Int) else (digitsVal ds : Int)
      String.mk pre ++ flatTail (baseN + mod)
  | none =>
      if mod > 0 then sClean ++ "+" ++ toString mod
      else if mod < 0 then sClean ++ toString mod
      else sClean

/-- Model of adjust_damage_str (ATDW.py lines 706-752), with the enclosing
closure variables dice_mod_expr and flat_mod_total passed explicitly. -/
def adjust_damage_str (diceModExpr : String) (flatModTotal : Int) (val : PyVal) : String :=
  let s := fmtCell val
  if s = "" then s
  else
    let s := if diceModExpr ≠ "" then apply_damage_dice_modifier s diceModExpr else s
    if flatModTotal = 0 then s else spliceFlatMod s flatModTotal

/-- Python int(v) under try/except (TypeError, ValueError): the successful
conversions among the modelled values. -/
def strictInt : PyVal → Option Int
  | .vint n => some n
  | .vbool b => some (if b then 1 else 0)
  | .vstr s => pyParseInt s
  | _ => none

/-- Model of apply_numeric_mod (ATDW.py lines 754-773): add the role and
trait deltas for the key to an integer base value, passing non-numeric and
missing bases through unchanged. -/
def apply_numeric_mod (roleMods traitMods : Dict) (baseVal : PyVal) (modKey : String) : PyVal :=
  if pyIsNa baseVal then baseVal
  else match strictInt baseVal with
    | none => baseVal
    | some b =>
        .vint (b + safeIntOr0 (rowGet roleMods modKey (.vint 0))
                 + safeIntOr0 (rowGet traitMods modKey (.vint 0)))

/-- The fmt_signed helper (ATDW.py lines 825-833): +N / -N rendering of
attack skill values, non-numeric values printed as is. -/
def fmt_signed (v : PyVal) : String :=
  if pyIsNa v then ""
  else match strictInt v with
    | none => pyStr v
    | some i => if i ≥ 0 then "+" ++ toString i else toString i

/-- Model of eff_attack (ATDW.py lines 835-872): slot 1 applies the melee
bias, slot 2 the ranged bias, on top of the shared role and trait attack
modifiers. -/
def eff_attack (roleMods traitMods : Dict) (baseVal : PyVal) (slot : Nat) : PyVal :=
  if pyIsNa baseVal then baseVal
  else match strictInt baseVal with
    | none => baseVal
    | some b =>
        let atkMod := safeIntOr0 (rowGet roleMods "attack_skill_mod" (.vint 0))
        let meleeMod := safeIntOr0 (rowGet roleMods "melee_attack_skill_mod" (.vint 0))
        let rangedMod := safeIntOr0 (rowGet roleMods "ranged_attack_skill_mod" (.vint 0))
        let traitAtkMod := safeIntOr0 (rowGet traitMods "attack_skill_mod" (.vint 0))
        let delta := if slot = 1 then atkMod + meleeMod + traitAtkMod
                     else atkMod + rangedMod + traitAtkMod
        .vint (b + delta)

/-- Total flat damage modifier of the stat_block branch (ATDW.py lines
643-664): Size (session state) + role damage_flat_mod + trait
damage_flat_mod, each missing or unusable source contributing zero. -/
def stat_block_flat_mod_total (σ : SState) : Int :=
  let sizeFlatMod := σ.damage_flat_modifier
  let roleMods := σ.role_mods.getD []
  let traitMods := σ.unique_trait_mods
  let roleFlat := safeIntOr0 (rowGet roleMods "damage_flat_mod" (.vint 0))
  let traitFlat := safeIntOr0 (rowGet traitMods "damage_flat_mod" (.vint 0))
  sizeFlatMod + roleFlat + traitFlat

/-- Truthiness of the stored current_enemy_role label (if role_label:). -/
def labelTruthy : Option String → Bool
  | none => false
  | some l => l ≠ ""

/-- Role-details bullet list of the stat_block branch (ATDW.py lines
942-1001), built when role_mods is non-empty. -/
def roleDetailLines (σ : SState) (roleMods : Dict) : List String :=
  let roleLabel := σ.current_enemy_role
  let summaryVal := rowGet roleMods "role_summary" (.vstr "")
  let summary := pyStrip (pyStr (if pyTruthy summaryVal then summaryVal else .vstr ""))
  let headLines :=
    if labelTruthy roleLabel then
      [if summary ≠ "" then "**Role:** " ++ roleLabel.getD "" ++ " — " ++ summary
       else "**Role:** " ++ roleLabel.getD ""]
    else if summary ≠ "" then ["**Role Summary:** " ++ summary]
    else []
  let hlMod := safeIntOr0 (rowGet roleMods "hit_location_roll_mod" (.vint 0))
  let l1 := if hlMod ≠ 0 then
      ["- Hit Location roll " ++ (if hlMod > 0 then "+" else "") ++ toString hlMod]
    else []
  let l2 := if pyTruthy (rowGet roleMods "disable_hit_location_table_when_attacked" .vnone) then
      ["- Ignore Hit Location table when this creature is attacked"] else []
  let l3 := if pyTruthy (rowGet roleMods "move_twice_per_turn" .vnone) then
      ["- Moves twice per turn"] else []
  let l4 := if pyTruthy (rowGet roleMods "disengage_no_opportunity_attack" .vnone) then
      ["- Can disengage without provoking opportunity attacks"] else []
  let l5 := if pyTruthy (rowGet roleMods "no_ranged_attacks" .vnone) then
      ["- Cannot make ranged attacks"] else []
  let l6 := if roleLabel = some "Swarm" ∧ σ.swarm_all_targets then
      ["- Swarm: attacks all characters in reach each round"] else []
  let dmgTaken := safeIntOr0 (rowGet roleMods "damage_taken_flat_mod" (.vint 0))
  let l7 := if dmgTaken ≠ 0 then
      ["- Incoming damage " ++ (if dmgTaken > 0 then "+" else "") ++ toString dmgTaken] else []
  let condBonus := safeIntOr0 (rowGet roleMods "conditional_attack_skill_mod" (.vint 0))
  let condCond := pyStrip (pyStr (if pyTruthy (rowGet roleMods "conditional_attack_skill_condition" (.vstr ""))
      then rowGet roleMods "conditional_attack_skill_condition" (.vstr "") else .vstr ""))
  let l8 := if condBonus ≠ 0 ∧ condCond ≠ "" then
      ["- Conditional Attack: " ++ (if condBonus > 0 then "+" else "") ++ toString condBonus
        ++ " Attack Skill " ++ condCond] else []
  let l9 := if pyTruthy (rowGet roleMods "use_psychic_ability_table" .vnone) then
      ["- Uses the Psychic Ability table for primary attacks"] else []
  headLines ++ l1 ++ l2 ++ l3 ++ l4 ++ l5 ++ l6 ++ l7 ++ l8 ++ l9

/-- Stat-block renderer (the table_name == stat_block branch of
format_row_for_display, ATDW.py lines 635-1003), with the already-parsed
recovery-reaction bullets passed in as rr.  The two melee-profile appends
that reference a variable bound only under a narrower guard (lines 894-898
and 921-925) surface as an UnboundLocalError result. -/
def formatStatBlockWith (σ : SState) (row : Dict) (rr : List String) : Except PyExc String :=
  let intOverride := σ.int_stat_override
  let roleMods := σ.role_mods.getD []
  let traitMods := σ.unique_trait_mods
  let flatModTotal := stat_block_flat_mod_total σ
  let rawDdm := rowGet roleMods "damage_dice_mod" (.vstr "")
  let diceModExpr := if ¬ pyIsNa rawDdm then pyUpper (pyStrip (pyStr rawDdm)) else ""
  let statKeys := ["str", "dex", "con", "wil", "int", "cha"]
  let effectiveStats := statKeys.map (fun key =>
    let baseVal := rowGet row key (.vstr "")
    let baseVal := match intOverride with
      | some n => if key = "int" then .vint n else baseVal
      | none => baseVal
    fmtCell (apply_numeric_mod roleMods traitMods baseVal (key ++ "_mod")))
  let statLines := ["| STR | DEX | CON | WIL | INT | CHA |",
    "| --- | --- | --- | --- | --- | --- |",
    "| " ++ String.intercalate " | " effectiveStats ++ " |",
    ""]
  let derivedEffective := ["wounds", "awareness", "armor", "defense"].map (fun key =>
    fmtCell (apply_numeric_mod roleMods traitMods (rowGet row key (.vstr "")) (key ++ "_mod")))
  let derivedLines := ["| Wounds | Awareness | Armor | Defense |",
    "| --- | --- | --- | --- |",
    "| " ++ String.intercalate " | " derivedEffective ++ " |",
    ""]
  let atk1 := rowGetN row "attack_skill_1"
  let atk2 := rowGetN row "attack_skill_2"
  let dmg1 := rowGetN row "damage_1"
  let dmg2 := rowGetN row "damage_2"
  let rng := rowGetN row "range"
  let dmg1Text := adjust_damage_str diceModExpr flatModTotal dmg1
  let dmg2Text := adjust_damage_str diceModExpr flatModTotal dmg2
  let noRanged := pyTruthy (rowGet roleMods "no_ranged_attacks" .vnone)
  let hasRange := (¬ pyIsNa rng ∧ pyStrip (pyStr rng) ≠ "") ∧ ¬ noRanged
  let hasTwoProfiles := ¬ pyIsNa atk2 ∨ ¬ pyIsNa dmg2
  if pyIsNa atk1 ∧ pyIsNa dmg1 then .error .unboundLocal
  else
    let atk1Melee := eff_attack roleMods traitMods atk1 1
    let meleeLine := "- **Melee Attack:** Attack Skill " ++ fmt_signed atk1Melee
      ++ ", Damage " ++ dmg1Text
    let attackResult : Except PyExc (List String) :=
      if hasRange then
        let rangedAtk := if hasTwoProfiles then eff_attack roleMods traitMods atk2 2
                         else eff_attack roleMods traitMods atk1 2
        let rangedDmg := if hasTwoProfiles then dmg2Text else dmg1Text
        .ok [meleeLine, "- **Ranged Attack:** Attack Skill " ++ fmt_signed rangedAtk
          ++ ", Damage " ++ rangedDmg ++ ", Range " ++ fmtCell rng]
      else
        if hasTwoProfiles then
          let atk2Melee := eff_attack roleMods traitMods atk2 1
          .ok [meleeLine, "- **Alternate Melee:** Attack Skill " ++ fmt_signed atk2Melee
            ++ ", Damage " ++ dmg2Text]
        else .error .unboundLocal
    match attackResult with
    | .error e => .error e
    | .ok attackLines =>
        let reactions := rowGetN row "reactions"
        let reactionLines :=
          if ¬ pyIsNa reactions then
            [""] ++ (if rr ≠ [] then ["**Recovery Reactions:**"] ++ rr
                     else ["**Recovery Reactions:** " ++ pyStr reactions])
          else []
        let roleLines :=
          if roleMods ≠ [] then
            let rl := roleDetailLines σ roleMods
            if rl ≠ [] then ["", "**Role Details:**"] ++ rl else []
          else []
        .ok (String.intercalate "\n"
          (statLines ++ derivedLines ++ attackLines ++ reactionLines ++ roleLines))

/-- Stat-block branch with its random recovery-reaction choices drawn from
the oracle list cs (the random.choice calls of parse_randomize_reactions). -/
def formatStatBlock (σ : SState) (row : Dict) (cs : List Nat) : Except PyExc String :=
  formatStatBlockWith σ row (parse_randomize_reactions (rowGetN row "reactions") cs)

/-- Values of a row in column order, as str(v), keeping only columns outside
the given ignore set whose value is not NaN (the list-comprehension idiom of
format_row_for_display). -/
def rowJoinParts (row : Dict) (ignoreCols : List String) : List String :=
  (row.filter (fun p => p.1 ∉ ignoreCols ∧ ¬ pyIsNa p.2)).map (fun p => pyStr p.2)

/-- Model of format_row_for_display (ATDW.py lines 174-1024) for the table
branches the claims touch: planet_designation, creature_limbs, npc_name,
random_site_name, size, creature_intelligence, unique_trait, stat_block, and
the generic title/description and join-all fallbacks.  The bespoke branches
for guardian, known_threat and creature_name (lines 232-632), which no claim
references, take the generic path here.  The oracle list cs feeds the random
reaction choices of the stat_block branch. -/
def format_row_with_rr (tableName : String) (row : Dict) (σ : SState)
    (rr : List String) : Except PyExc String :=
  if tableName = "planet_designation" then
    .ok (if rowHas row "letter" ∧ rowHas row "noun" ∧ rowHas row "number" then
      pyStr (rowGetN row "letter") ++ " - " ++ pyStr (rowGetN row "noun")
        ++ " - " ++ pyStr (rowGetN row "number")
    else String.intercalate " - " (row.map (fun p => pyStr p.2)))
  else if tableName = "creature_limbs" then
    let val := rowGet row "description" (.vstr "")
    .ok (if pyIsNa val then "" else pyStrip (pyStr val))
  else if tableName = "npc_name" then
    .ok (if rowHas row "name" then pyStr (rowGetN row "name")
    else match (row.filter (fun p => ¬ pyIsNa p.2)).head? with
      | some p => pyStr p.2
      | none => "Unknown Name")
  else if tableName = "random_site_name" then
    let first := pyStrip (pyStr (rowGet row "first_syllable" (.vstr "")))
    let second := pyStrip (pyStr (rowGet row "second_syllable" (.vstr "")))
    let number := pyStrip (pyStr (rowGet row "numeric" (.vstr "")))
    .ok (first ++ second ++ "-" ++ number)
  else if tableName = "size" then
    let parts := rowJoinParts row ["modifier"]
    .ok (if parts ≠ [] then String.intercalate " – " parts else "")
  else if tableName = "creature_intelligence" then
    .ok (pyStrip (pyStr (rowGet row "description" (.vstr ""))))
  else if tableName = "unique_trait" then
    .ok (pyStrip (pyStr (rowGet row "description" (.vstr ""))))
  else if tableName = "stat_block" then
    formatStatBlockWith σ row rr
  else
    let generic : Option String :=
      if rowHas row "title" ∧ rowHas row "description" then
        let title := if ¬ pyIsNa (rowGetN row "title") then pyStr (rowGetN row "title") else ""
        let desc := if ¬ pyIsNa (rowGetN row "description") then pyStr (rowGetN row "description") else ""
        if title ≠ "" ∧ desc ≠ "" then some (title ++ ": " ++ desc)
        else if title ≠ "" then some title
        else if desc ≠ "" then some desc
        else none
      else none
    match generic with
    | some s => .ok s
    | none =>
        let parts := rowJoinParts row ["difficulty", "creature_type"]
        .ok (if parts ≠ [] then String.intercalate " – " parts else tableName)

/-- Model of format_row_for_display proper: the random reaction choices of
the stat_block branch are resolved from the oracle list cs; every other
branch ignores them. -/
def format_row_for_display (tableName : String) (row : Dict) (σ : SState)
    (cs : List Nat) : Except PyExc String :=
  format_row_with_rr tableName row σ
    (parse_randomize_reactions (rowGetN row "reactions") cs)

/-- Index (from the end) of the last element satisfying the predicate: the
reverse range scan of update_last_stat_block_persistent. -/
def lastIdxWhere (l : List String) (p : String → Bool) : Option Nat :=
  (List.range l.length).reverse.find? (fun i => p (l.getD i ""))

/-- Split at the first occurrence of a separator: Python s.split(sep, 1)
restricted to the two-part outcome. -/
def splitFirst (cs sep : List Char) : Option (List Char × List Char) :=
  match cs with
  | [] => none
  | c :: rest =>
      if sep.isPrefixOf (c :: rest) then some ([], (c :: rest).drop sep.length)
      else (splitFirst rest sep).map (fun q => (c :: q.1, q.2))

/-- Model of update_last_stat_block_persistent (ATDW.py lines 1215-1267):
rebuild the last rolled stat block under the current modifiers and replace
the most recent matching entry of the given persistent pool, preserving the
header line before the first blank-line separator.  The oracle list feeds the
reaction choices of the rebuild. -/
def update_last_stat_block_persistent (group_id : Int) (cs : List Nat) (σ : SState) : SState :=
  match σ.last_stat_block_row with
  | none => σ
  | some lastRow =>
      if lastRow = ([] : Dict) then σ
      else
        match formatStatBlock σ lastRow cs with
        | .error _ => σ
        | .ok rebuilt =>
            let pool := poolGet σ.persistent group_id
            if pool = [] then σ
            else
              let byLabel := match σ.last_stat_block_label with
                | some l =>
                    if l ≠ "" then
                      lastIdxWhere pool (fun s => pyStartsWith s ("**" ++ l ++ ":**"))
                    else none
                | none => none
              let idx := match byLabel with
                | some i => some i
                | none => lastIdxWhere pool
                    (fun s => strContains s "Stat Block" ∧ strContains s "| STR |")
              match idx with
              | none => σ
              | some i =>
                  let item := pool.getD i ""
                  let newItem := match splitFirst item.data "\n\n".data with
                    | some (pre, _) => String.mk pre ++ "\n\n" ++ rebuilt
                    | none => item ++ "\n\n" ++ rebuilt
                  { σ with persistent := poolSet σ.persistent group_id (pool.set i newItem) }

/-- Model of set_unique_trait_modifiers_from_row (ATDW.py lines 1270-1331):
store the trait description and numeric modifiers, apply the STR/DEX column
repair, record ability suppression, prune previously persisted Enemy Ability
and Unique Trait lines from pool 5, and rebuild a persisted stat block. -/
def set_unique_trait_modifiers_from_row (row : Dict) (cs : List Nat) (σ : SState) : SState :=
  let desc := pyStrip (pyStr (rowGet row "description" (.vstr "")))
  let armor := rowGetN row "armor"
  let defense := rowGetN row "defense"
  let attackSkill := rowGetN row "attack_skill"
  let damage := rowGetN row "damage"
  let strength := rowGetN row "str"
  let dexterity := rowGetN row "dex"
  let constitution := rowGetN row "con"
  let willpower := rowGetN row "wil"
  let wounds := rowGetN row "wounds"
  let repair := pyIsNa strength ∧ pyIsNa dexterity
    ∧ strContains (pyUpper desc) "STR" ∧ strContains (pyUpper desc) "DEX"
    ∧ (¬ pyIsNa armor ∨ ¬ pyIsNa defense)
  let strength := if repair then armor else strength
  let dexterity := if repair then defense else dexterity
  let armor := if repair then .vint 0 else armor
  let defense := if repair then .vint 0 else defense
  let mods : Dict := [
    ("armor_mod", .vint (safe_int armor 0)),
    ("defense_mod", .vint (safe_int defense 0)),
    ("attack_skill_mod", .vint (safe_int attackSkill 0)),
    ("damage_flat_mod", .vint (safe_int damage 0)),
    ("str_mod", .vint (safe_int strength 0)),
    ("dex_mod", .vint (safe_int dexterity 0)),
    ("con_mod", .vint (safe_int constitution 0)),
    ("wil_mod", .vint (safe_int willpower 0)),
    ("wounds_mod", .vint (safe_int wounds 0))]
  let abilityFlag := safe_int (rowGetN row "ability") 0
  let σ := { σ with
    unique_trait_desc := some desc
    unique_trait_mods := mods
    suppress_enemy_ability := abilityFlag = -1 }
  let σ := if abilityFlag = -1 then
      remove_persistent_items 5
        ["<strong>Enemy Ability:</strong>", "**Enemy Ability:**", "Enemy Ability:"] [] σ
    else σ
  let σ := remove_persistent_items 5
      ["<strong>Unique Trait:</strong>", "**Unique Trait:**", "Unique Trait:"] [] σ
  update_last_stat_block_persistent 5 cs σ

/-- One loaded CSV table: its column list and its rows. -/
structure Df where
  cols : List String
  rows : List Dict
  deriving DecidableEq

/-- The CSV files available to load_table_df, keyed by table name; a missing
key is the FileNotFoundError case. -/
abbrev Env := List (String × Df)

/-- Lookup of a table in the environment. -/
def envLookup (env : Env) (t : String) : Option Df :=
  match env with
  | [] => none
  | (k, v) :: rest => if k = t then some v else envLookup rest t

/-- First occurrences of each distinct value, the pandas Series.unique order. -/
def uniqueFirst : List PyVal → List PyVal
  | [] => []
  | x :: rest => x :: uniqueFirst (rest.filter (fun y => y ≠ x))
termination_by l => l.length
decreasing_by
  simp only [List.length_cons]
  exact Nat.lt_succ_of_le (List.length_filter_le _ _)

/-- Model of set_role_modifiers_from_text (ATDW.py lines 110-144): look up
the first role keyword of roles.csv occurring in the given text and store
that row as the role modifiers.  A roles table without a role column raises
KeyError, and a matched non-string role value leaves iloc[0] to raise
IndexError, both modelled as errors. -/
def set_role_modifiers_from_text (env : Env) (roleText : String) (σ : SState) :
    Except PyExc SState :=
  match envLookup env "roles" with
  | none => .ok { σ with role_mods := none }
  | some df =>
      if "role" ∉ df.cols then .error .keyError
      else
        let text := pyStrip (pyLower roleText)
        if text = "" then .ok { σ with role_mods := none }
        else
          let colVals := df.rows.map (fun r => rowGetN r "role")
          let candidates := (uniqueFirst (colVals.filter (fun v => ¬ pyIsNa v))).map
            (fun v => pyLower (pyStr v))
          match candidates.find? (fun key => strContains text key) with
          | none => .ok { σ with role_mods := none }
          | some foundKey =>
              let matchRows := df.rows.filter (fun r =>
                match rowGetN r "role" with
                | .vstr s => pyLower s = foundKey
                | _ => false)
              match matchRows.head? with
              | none => .error .indexError
              | some roleRow =>
                  .ok { σ with
                        role_mods := some roleRow
                        current_enemy_role := some roleText }

/-- Explicit source of randomness for one roll_table call: the sampled row
index, the dice of roll_int_from_expression, the reaction choices of the
displayed formatting, and the reaction choices of a stat-block rebuild. -/
structure Oracle where
  pick : Nat
  dice : List Nat
  fmtcs : List Nat
  ucs : List Nat

/-- Category normalisation of the option filters (ATDW.py lines 1348-1349):
lowercase, hyphens to spaces, all whitespace removed. -/
def normName (s : String) : String :=
  String.mk (((pyLower s).data.map (fun c => if c = '-' then ' ' else c)).filter
    (fun c => ¬ c.isWhitespace))

/-- Option filtering of roll_table (ATDW.py lines 1344-1402): the
table-specific filters for stat_block, creature_type, creature_limbs and
known_threat, then the generic previous_hex / creature_type / difficulty /
category / gender column filters. -/
def filterRows (tableName : String) (optionArg : Option String) (df : Df) : List Dict :=
  match optionArg with
  | none => df.rows
  | some opt =>
      if tableName = "stat_block" ∧ "difficulty" ∈ df.cols then
        df.rows.filter (fun r => match rowGetN r "difficulty" with
          | .vstr s => pyLower s = pyLower opt
          | _ => false)
      else if tableName = "creature_type" ∧ "category" ∈ df.cols then
        df.rows.filter (fun r => normName (pyStr (rowGetN r "category")) = normName opt)
      else if tableName = "creature_limbs" ∧ "category" ∈ df.cols then
        let wanted := if pyStartsWith (pyLower (pyStrip opt)) "aquatic" then "aquatic" else "number"
        let r1 := df.rows.filter (fun r => pyLower (pyStr (rowGetN r "category")) = wanted)
        if "description" ∈ df.cols then
          r1.filter (fun r => ¬ pyIsNa (rowGetN r "description")
            ∧ pyStrip (pyStr (rowGetN r "description")) ≠ "")
        else r1
      else if tableName = "known_threat" ∧ "name" ∈ df.cols then
        df.rows.filter (fun r => pyLower (pyStr (rowGetN r "name")) = opt.toLower)
      else if "previous_hex" ∈ df.cols then
        df.rows.filter (fun r => match rowGetN r "previous_hex" with
          | .vstr s => pyLower s = pyLower opt
          | _ => false)
      else if "creature_type" ∈ df.cols then
        df.rows.filter (fun r => match rowGetN r "creature_type" with
          | .vstr s => pyLower s = pyLower opt
          | _ => false)
      else if "difficulty" ∈ df.cols then
        df.rows.filter (fun r => rowGetN r "difficulty" = .vstr opt)
      else if "category" ∈ df.cols then
        df.rows.filter (fun r => match rowGetN r "category" with
          | .vstr s => pyLower s = pyLower opt
          | _ => false)
      else if "gender" ∈ df.cols then
        df.rows.filter (fun r => match rowGetN r "gender" with
          | .vstr s => pyLower s = pyLower opt
          | _ => false)
      else df.rows

/-- Parse of one size-roll cell (ATDW.py lines 1438-1446): a dice range like
19-20 yields its high end, otherwise a plain integer, otherwise nothing. -/
def parseSizeRollCell (raw : String) : Option Int :=
  let cs := raw.data
  let d1 := cs.takeWhile Char.isDigit
  let r1 := (cs.drop d1.length).dropWhile Char.isWhitespace
  let ranged : Option Int :=
    match r1 with
    | dash :: r2 =>
        if (dash = '-' ∨ dash = '–') ∧ d1 ≠ [] then
          let r2' := r2.dropWhile Char.isWhitespace
          let d2 := r2'.takeWhile Char.isDigit
          if d2 ≠ [] ∧ r2'.drop d2.length = [] then some (digitsVal d2) else none
        else none
    | [] => none
  match ranged with
  | some n => some n
  | none => pyParseInt raw

/-- Column scan of the size-roll inference (ATDW.py lines 1433-1448): the
first of the candidate columns that is present, non-NaN and parseable. -/
def inferSizeRollFromCols : List String → Dict → Option Int
  | [], _ => none
  | c :: rest, row =>
      if rowHas row c ∧ ¬ pyIsNa (rowGetN row c) then
        match parseSizeRollCell (pyStrip (pyStr (rowGetN row c))) with
        | some n => some n
        | none => inferSizeRollFromCols rest row
      else inferSizeRollFromCols rest row

/-- Size-table side effects of roll_table (ATDW.py lines 1425-1459): store
the flat damage modifier and infer the D20 roll behind the sampled row,
falling back to the row position of a 20-row table. -/
def sizeSideEffects (row : Dict) (rows : List Dict) (i : Nat) (σ : SState) : SState :=
  let dfm := safeIntOr0 (rowGet row "modifier" (.vint 0))
  let sr := match inferSizeRollFromCols ["d20", "roll", "result", "range"] row with
    | some n => some n
    | none => if rows.length = 20 then some ((i : Int) + 1) else none
  { σ with damage_flat_modifier := dfm, size_roll := sr }

/-- Side effects of roll_table that run between sampling and formatting
(ATDW.py lines 1415-1462): stat_block row capture, unique-trait modifiers,
size modifiers, and the creature-intelligence INT override, whose dice come
from the oracle. -/
def roll_pre_state (tableName : String) (optionArg : Option String) (row : Dict)
    (rows : List Dict) (i : Nat) (oc : Oracle) (σ : SState) : Except PyExc SState :=
  let σ := if tableName = "stat_block" then
      { σ with
        last_stat_block_row := some row
        last_stat_block_label := some (match optionArg with
          | some o => o ++ " Stat Block"
          | none => "Stat Block") }
    else σ
  let σ := if tableName = "unique_trait" then set_unique_trait_modifiers_from_row row oc.ucs σ
    else σ
  let σ := if tableName = "size" then sizeSideEffects row rows i σ else σ
  if tableName = "creature_intelligence" ∧ rowHas row "value" then
    match roll_int_from_expression (rowGetN row "value") oc.dice with
    | .error e => .error e
    | .ok n => .ok { σ with int_stat_override := some n }
  else .ok σ

/-- Side effects of roll_table that run after formatting (ATDW.py lines
1467-1494): capture of enemy-role modifiers happens before this stage; here
the size text and swarm flag are stored, a previously persisted stat block
is rebuilt for the modifier tables, the result is persisted to its group
pool (never for unique_trait), and the mission log entry is appended. -/
def roll_post_state (tableName : String) (group : Option Int) (log : Bool)
    (oc : Oracle) (result : String) (σr : SState) : SState :=
  let σs := if tableName = "size" then
      { σr with
        current_size_text := some result
        swarm_all_targets := σr.size_roll = some 19 ∨ σr.size_roll = some 20 }
    else σr
  let σu := if tableName = "enemy_role" ∨ tableName = "size"
      ∨ tableName = "creature_intelligence" then
      update_last_stat_block_persistent 5 oc.ucs σs
    else σs
  let σg := if tableName ≠ "unique_trait" then add_to_persistent group result σu else σu
  if log then add_to_log (tableName ++ ": " ++ result) σg else σg

/-- Model of roll_table (ATDW.py lines 1333-1496).  The returned pair is the
session state after the call and either the returned string or the modelled
exception escaping to the caller.  The missing-CSV and empty-result branches
return their inline error strings with the state untouched. -/
def roll_table (env : Env) (tableName : String) (group : Option Int) (log : Bool)
    (optionArg : Option String) (oc : Oracle) (σ : SState) : SState × Except PyExc String :=
  match envLookup env tableName with
  | none => (σ, .ok ("[ERROR] CSV for " ++ sqt ++ tableName ++ sqt ++ " not found."))
  | some df =>
      let rows := filterRows tableName optionArg df
      if rows = [] then
        (σ, .ok ("[ERROR] No rows found for " ++ sqt ++ tableName ++ sqt ++ " with option "
          ++ sqt ++ (match optionArg with | some o => o | none => "None") ++ sqt ++ "."))
      else
        let i := oc.pick % rows.length
        let row := rows.getD i []
        match roll_pre_state tableName optionArg row rows i oc σ with
        | .error e => (σ, .error e)
        | .ok σp =>
            match format_row_for_display tableName row σp oc.fmtcs with
            | .error e => (σp, .error e)
            | .ok result =>
                match (if tableName = "enemy_role" then
                    set_role_modifiers_from_text env result σp
                  else .ok σp) with
                | .error e => (σp, .error e)
                | .ok σr =>
                    (roll_post_state tableName group log oc result σr, .ok result)

/-- Explicit randomness of one roll_hacking call: the difficulty draw, the
initial dice, and the reroll dice, each randint(1, 6) modelled as
1 + x mod 6. -/
structure HackRand where
  dpick : Nat
  dice : List Nat
  redice : List Nat

/-- Auto-rolled hacking difficulty (ATDW.py line 1516): a value in 1..6. -/
def hackDifficulty (r : HackRand) : Nat :=
  1 + r.dpick % 6

/-- Initial pool: difficulty many six-sided dice (ATDW.py line 1521). -/
def hackOrigRolls (r : HackRand) : List Nat :=
  (List.range (hackDifficulty r)).map (fun i => 1 + r.dice.getD i 0 % 6)

/-- Reroll budget from the flags (ATDW.py lines 1526-1532). -/
def hackBudget (flags : List String) : Nat :=
  (if "SuccessfulRoll" ∈ flags then 1 else 0)
    + (if "Cypher" ∈ flags then 1 else 0)
    + (if "BlackCypher" ∈ flags then 2 else 0)

/-- The reroll loop (ATDW.py lines 1539-1542): walk the pool left to right,
replacing each die showing a one by a fresh die while budget remains. -/
def applyRerolls : List Nat → Nat → List Nat → List Nat
  | [], _, _ => []
  | x :: xs, b, fresh =>
      if x = 1 ∧ b > 0 then (1 + fresh.headD 0 % 6) :: applyRerolls xs (b - 1) fresh.tail
      else x :: applyRerolls xs b fresh

/-- Final pool after rerolls. -/
def hackFinalRolls (flags : List String) (r : HackRand) : List Nat :=
  applyRerolls (hackOrigRolls r) (hackBudget flags) r.redice

/-- Python str of a list of ints, as printed in the hacking summary. -/
def pyListRepr (l : List Nat) : String :=
  "[" ++ String.intercalate ", " (l.map (fun n => toString n)) ++ "]"

/-- The summary lines of roll_hacking (ATDW.py lines 1552-1567). -/
def hackLines (flags : List String) (r : HackRand) : List String :=
  let d := hackDifficulty r
  let orig := hackOrigRolls r
  let final := hackFinalRolls flags r
  let success := final.all (fun x => x ≠ 1)
  let spent := orig.countP (fun x => x = 1) - final.countP (fun x => x = 1)
  ["Hacking Difficulty: **" ++ toString d ++ "**",
    "Original Rolls: " ++ pyListRepr orig,
    "Final Rolls: " ++ pyListRepr final,
    "Rerolls Used: **" ++ toString spent ++ "**",
    (if success then "🟢 **Success! System unlocked.**"
     else "🔴 **Failure! System locks.**"),
    "Time Required: **" ++ toString d ++ " rounds**"]

/-- Model of roll_hacking (ATDW.py lines 1498-1576): build the summary text
and append it to the mission log. -/
def roll_hacking (flags : List String) (r : HackRand) (σ : SState) : SState × String :=
  let result := String.intercalate "\n" (hackLines flags r)
  (add_to_log result σ, result)

/-- Number of hexes of the map (MAP_HEX_COUNT, ATDW.py line 1580). -/
def MAP_HEX_COUNT : Int := 96

/-- Default hex record, in the creation order of ensure_map_state
(ATDW.py lines 1585-1595). -/
def mapDefaultHex : Dict :=
  [("name", .vstr ""), ("biome", .vstr ""), ("terrain", .vstr ""),
    ("visited", .vbool false), ("party", .vbool false), ("site", .vbool false),
    ("special", .vbool false), ("notes", .vstr ""), ("last", .vstr "")]

/-- Lookup membership in an integer-keyed map dict. -/
def hexMapMem (m : List (Int × Dict)) (k : Int) : Bool :=
  match m with
  | [] => false
  | (k', _) :: rest => if k' = k then true else hexMapMem rest k

/-- Dict write cleaned[kk] = v with Python insertion-order semantics. -/
def hexMapSet (m : List (Int × Dict)) (k : Int) (v : Dict) : List (Int × Dict) :=
  match m with
  | [] => [(k, v)]
  | (k', x) :: rest => if k' = k then (k', v) :: rest else (k', x) :: hexMapSet rest k v

/-- Model of the Download Map JSON export (ATDW.py line 4399): json.dumps
turns the integer hex ids into their decimal strings and keeps the fields of
each record; boolean and string field values survive the JSON round trip
unchanged. -/
def map_export_json (m : List (Int × Dict)) : List (String × Dict) :=
  m.map (fun p => (toString p.1, p.2))

/-- The setdefault sequence of the map import (ATDW.py lines 4417-4425):
absent fields are appended with their defaults, in that order. -/
def hexSetDefaults (v : Dict) : Dict :=
  [("visited", PyVal.vbool false), ("party", .vbool false), ("site", .vbool false),
    ("special", .vbool false), ("name", .vstr ""), ("biome", .vstr ""),
    ("terrain", .vstr ""), ("notes", .vstr ""), ("last", .vstr "")].foldl
    (fun (d : List (String × PyVal)) p => if rowHas d p.1 then d else d ++ [p]) v

/-- Entry loop of the map import (ATDW.py lines 4414-4426): parse each JSON
key back to an int (a bad key raises and aborts the whole import), keep ids
1..MAP_HEX_COUNT, fill missing record fields. -/
def map_import_entries (acc : List (Int × Dict)) :
    List (String × Dict) → Option (List (Int × Dict))
  | [] => some acc
  | (k, v) :: rest =>
      match pyParseInt k with
      | none => none
      | some kk =>
          if 1 ≤ kk ∧ kk ≤ MAP_HEX_COUNT then
            map_import_entries (hexMapSet acc kk (hexSetDefaults v)) rest
          else map_import_entries acc rest

/-- Fill step of the map import (ATDW.py lines 4428-4439): setdefault every
id 1..MAP_HEX_COUNT to the default record, in ascending order. -/
def mapFillMissing (acc : List (Int × Dict)) : List (Int × Dict) :=
  (List.range 96).foldl
    (fun a i => if hexMapMem a ((i : Int) + 1) then a else a ++ [((i : Int) + 1, mapDefaultHex)])
    acc

/-- Model of the Import Map JSON handler (ATDW.py lines 4409-4441): the hex
map that st.session_state receives from a parsed JSON object. -/
def map_import_json (j : List (String × Dict)) : Option (List (Int × Dict)) :=
  (map_import_entries [] j).map mapFillMissing

theorem poolGet_poolSet_self (p : Pools) (g : Int) (v : List String) :
    poolGet (poolSet p g v) g = v := by
  induction p with
  | nil => simp [poolSet, poolGet]
  | cons hd tl ih =>
      obtain ⟨k, x⟩ := hd
      by_cases h : k = g
      · simp [poolSet, poolGet, h]
      · simp [poolSet, poolGet, h, ih]

theorem poolGet_poolSet_ne (p : Pools) (g g' : Int) (v : List String) (h : g' ≠ g) :
    poolGet (poolSet p g v) g' = poolGet p g' := by
  have hng : ¬ g = g' := fun hgg => h hgg.symm
  induction p with
  | nil => simp [poolSet, poolGet, hng]
  | cons hd tl ih =>
      obtain ⟨k, x⟩ := hd
      by_cases hk : k = g
      · subst hk
        simp [poolSet, poolGet, hng]
      · by_cases hkg : k = g'
        · simp [poolSet, poolGet, hk, hkg, h]
        · simp [poolSet, poolGet, hk, hkg, ih]

/-- C9: add_to_persistent with a group id appends the text as the new last
element of that pool (an absent pool starts as []), leaves every other pool
and the mission log unchanged, and does nothing for a None group id;
clear_persistent empties an existing pool and leaves every other pool and
the log unchanged. -/
theorem claim9_persistent_ops (σ : SState) (g : Int) (t : String) :
    poolGet (add_to_persistent (some g) t σ).persistent g = poolGet σ.persistent g ++ [t]
    ∧ (∀ g', g' ≠ g →
        poolGet (add_to_persistent (some g) t σ).persistent g' = poolGet σ.persistent g')
    ∧ (add_to_persistent (some g) t σ).log = σ.log
    ∧ add_to_persistent none t σ = σ
    ∧ (poolMem σ.persistent g = true → poolGet (clear_persistent g σ).persistent g = [])
    ∧ (∀ g', g' ≠ g →
        poolGet (clear_persistent g σ).persistent g' = poolGet σ.persistent g')
    ∧ (clear_persistent g σ).log = σ.log := by
  refine ⟨?_, ?_, ?_, ?_, ?_, ?_, ?_⟩
  · simp [add_to_persistent, poolGet_poolSet_self]
  · intro g' h
    simp [add_to_persistent, poolGet_poolSet_ne _ _ _ _ h]
  · simp [add_to_persistent]
  · rfl
  · intro h
    simp [clear_persistent, h, poolGet_poolSet_self]
  · intro g' h
    unfold clear_persistent
    by_cases hm : poolMem σ.persistent g
    · simp [hm, poolGet_poolSet_ne _ _ _ _ h]
    · simp [hm]
  · unfold clear_persistent
    by_cases hm : poolMem σ.persistent g <;> simp [hm]

/-- C9 witness: the appended element, the frame on another pool, and the
clear of an existing pool at concrete inputs. -/
theorem claim9_persistent_ops_witness :
    poolGet (add_to_persistent (some 2) "x" initState).persistent 2 =
      poolGet initState.persistent 2 ++ ["x"]
    ∧ poolGet (add_to_persistent (some 2) "x" initState).persistent 7 =
      poolGet initState.persistent 7
    ∧ poolGet (clear_persistent 2 (add_to_persistent (some 2) "x" initState)).persistent 2 = [] := by
  refine ⟨(claim9_persistent_ops initState 2 "x").1, ?_, ?_⟩
  · exact (claim9_persistent_ops initState 2 "x").2.1 7 (by decide)
  · exact (claim9_persistent_ops (add_to_persistent (some 2) "x" initState) 2 "x").2.2.2.2.1
      (by decide)

/-- Spec-side reading of one optional integer delta of the stat-block
accumulation: a missing, empty, or non-integer source contributes zero,
an integer-like source contributes its value. -/
def specFlatDelta : Option PyVal → Int
  | none => 0
  | some (.vint n) => n
  | some (.vbool b) => if b then 1 else 0
  | some (.vstr s) => if pyStrip s = "" then 0 else (pyParseInt s).getD 0
  | some _ => 0

theorem safeIntOr0_getD_eq_specFlatDelta (o : Option PyVal) :
    safeIntOr0 (o.getD (.vint 0)) = specFlatDelta o := by
  match o with
  | none => rfl
  | some v =>
      match v with
      | .vnone => rfl
      | .vnan => rfl
      | .vbool b => cases b <;> rfl
      | .vint n =>
          by_cases h : n = 0
          · subst h; rfl
          · simp [safeIntOr0, specFlatDelta, pyTruthy, h]
      | .vstr s =>
          by_cases h : s = ""
          · subst h
            have hps : pyStrip "" = "" := rfl
            simp [safeIntOr0, specFlatDelta, pyTruthy, hps]
          · by_cases ht : pyStrip s = ""
            · have hd : (pyStrip s).data = [] := by rw [ht]
              have hp : pyParseInt s = none := by unfold pyParseInt; rw [hd]; rfl
              simp [safeIntOr0, specFlatDelta, pyTruthy, h, ht, hp]
            · simp [safeIntOr0, specFlatDelta, pyTruthy, h, ht]

/-- C1: the total flat damage modifier applied by the stat-block formatter is
the integer sum of the Size modifier held in session state and the optional
damage_flat_mod deltas of the enemy role and the unique trait, a missing,
empty, or non-integer source contributing zero. -/
theorem claim1_flat_mod_total_sum (σ : SState) :
    stat_block_flat_mod_total σ =
      σ.damage_flat_modifier
        + specFlatDelta (dictFind (σ.role_mods.getD []) "damage_flat_mod")
        + specFlatDelta (dictFind σ.unique_trait_mods "damage_flat_mod") := by
  simp only [stat_block_flat_mod_total, rowGet]
  rw [safeIntOr0_getD_eq_specFlatDelta, safeIntOr0_getD_eq_specFlatDelta]

/-- C4: the missing-CSV branch of roll_table returns exactly the inline
not-found string and the empty-filter branch exactly the inline no-rows
string, in both cases leaving the session state (mission log and every
persistent pool included) untouched. -/
theorem claim4_roll_table_error_branches (env : Env) (t : String) (g : Option Int)
    (l : Bool) (o : Option String) (oc : Oracle) (σ : SState) :
    (envLookup env t = none →
      roll_table env t g l o oc σ =
        (σ, .ok ("[ERROR] CSV for " ++ sqt ++ t ++ sqt ++ " not found.")))
    ∧ (∀ df, envLookup env t = some df → filterRows t o df = [] →
      roll_table env t g l o oc σ =
        (σ, .ok ("[ERROR] No rows found for " ++ sqt ++ t ++ sqt ++ " with option "
          ++ sqt ++ (match o with | some x => x | none => "None") ++ sqt ++ "."))) := by
  constructor
  · intro h
    unfold roll_table
    rw [h]
  · intro df hdf hrows
    unfold roll_table
    rw [hdf]
    simp [hrows]

/-- C4 witness: both error branches at concrete inputs, with the state
visibly unchanged. -/
theorem claim4_roll_table_error_branches_witness :
    roll_table [] "warp_event" none false none ⟨0, [], [], []⟩ initState =
      (initState, .ok ("[ERROR] CSV for " ++ sqt ++ "warp_event" ++ sqt ++ " not found."))
    ∧ roll_table [("npc_name", ⟨["name", "gender"], [[("name", .vstr "Ada"), ("gender", .vstr "F")]]⟩)]
        "npc_name" none false (some "m") ⟨0, [], [], []⟩ initState =
      (initState, .ok ("[ERROR] No rows found for " ++ sqt ++ "npc_name" ++ sqt
        ++ " with option " ++ sqt ++ "m" ++ sqt ++ ".")) := by
  constructor
  · exact (claim4_roll_table_error_branches [] "warp_event" none false none
      ⟨0, [], [], []⟩ initState).1 (by decide)
  · exact (claim4_roll_table_error_branches _ "npc_name" none false (some "m")
      ⟨0, [], [], []⟩ initState).2
      ⟨["name", "gender"], [[("name", .vstr "Ada"), ("gender", .vstr "F")]]⟩
      (by decide) (by decide)

theorem searchTrailingFlat_complete (pre : List Char) (sign : Char) (ds : List Char)
    (hsign : sign = '+' ∨ sign = '-') (hne : ds ≠ []) (hdig : ∀ c ∈ ds, c.isDigit) :
    searchTrailingFlat (pre ++ sign :: ds) = some (pre, sign, ds) := by
  induction pre with
  | nil =>
      simp only [List.nil_append, searchTrailingFlat]
      rw [if_pos]
      exact ⟨hsign, hne, List.all_eq_true.mpr hdig⟩
  | cons x pre' ih =>
      simp only [List.cons_append, searchTrailingFlat]
      rw [if_neg]
      · erw [ih]
        rfl
      · rintro ⟨-, -, hrdig⟩
        have hmem : sign ∈ pre' ++ sign :: ds := by simp
        have hd := List.all_eq_true.mp hrdig sign hmem
        rcases hsign with h | h <;> subst h <;> exact absurd hd (by decide)

theorem searchTrailingFlat_none (cs : List Char)
    (h : ¬ ∃ pre sign ds, cs = pre ++ sign :: ds ∧ (sign = '+' ∨ sign = '-')
      ∧ ds ≠ [] ∧ ∀ c ∈ ds, c.isDigit) :
    searchTrailingFlat cs = none := by
  induction cs with
  | nil => rfl
  | cons c rest ih =>
      have hrest : searchTrailingFlat rest = none :=
        ih (fun ⟨pre, sign, ds, hdecomp, hs, hne, hdig⟩ =>
          h ⟨c :: pre, sign, ds, by simp [hdecomp], hs, hne, hdig⟩)
      have hC : ¬ ((c = '+' ∨ c = '-') ∧ rest ≠ [] ∧ rest.all Char.isDigit) :=
        fun ⟨hc, hne, hdig⟩ =>
          h ⟨[], c, rest, rfl, hc, hne, List.all_eq_true.mp hdig⟩
      simp only [searchTrailingFlat]
      rw [if_neg hC, hrest]
      rfl

/-- C2: with a non-zero total flat modifier, the splice replaces a trailing
+N or -N term of the (stripped) damage expression by the rendered term for
its signed value plus the modifier — written +k for positive k, -k for
negative k, omitted at zero — keeping the prefix unchanged; an expression
with no trailing flat term gets +m appended for positive m and m itself for
negative m. -/
theorem claim2_flat_splice (s : String) (m : Int) (hm : m ≠ 0) :
    (∀ pre sign ds, (pyStrip s).data = pre ++ sign :: ds → (sign = '+' ∨ sign = '-') →
        ds ≠ [] → (∀ c ∈ ds, c.isDigit) →
        spliceFlatMod s m = String.mk pre ++ flatTail
          ((if sign = '-' then -(digitsVal ds : Int) else (digitsVal ds : Int)) + m))
    ∧ ((¬ ∃ pre sign ds, (pyStrip s).data = pre ++ sign :: ds ∧ (sign = '+' ∨ sign = '-')
          ∧ ds ≠ [] ∧ ∀ c ∈ ds, c.isDigit) →
        spliceFlatMod s m = pyStrip s ++ (if m > 0 then "+" ++ toString m else toString m)) := by
  constructor
  · intro pre sign ds hdecomp hs hne hdig
    simp only [spliceFlatMod]
    rw [hdecomp, searchTrailingFlat_complete pre sign ds hs hne hdig]
  · intro hno
    simp only [spliceFlatMod]
    rw [searchTrailingFlat_none _ hno]
    by_cases hp : m > 0
    · simp [hp, String.append_assoc]
    · have hneg : m < 0 := by omega
      simp [hp, hneg]

/-- C2 witness: the example given by the claim, a damage string (D10)+5 spliced
with a total of +3. -/
theorem claim2_flat_splice_witness : spliceFlatMod "(D10)+5" 3 = "(D10)+8" := by
  have h := (claim2_flat_splice "(D10)+5" 3 (by decide)).1 "(D10)".data '+' ['5']
    (by decide) (by decide) (by decide) (by decide)
  rw [h]
  decide

/-- C3 evidence: on a stat_block row carrying only a first attack profile
(no range column, no second profile), roll_table raises UnboundLocalError —
the alternate-melee append of format_row_for_display reads atk2_melee, which
is bound only when a second profile exists — instead of returning a string;
the exception escapes after the side effect that records the rolled row. -/
theorem claim3_roll_table_raises_unbound_local :
    roll_table [("stat_block", ⟨["attack_skill_1", "damage_1"],
        [[("attack_skill_1", .vint 3), ("damage_1", .vstr "(D10)+5")]]⟩)]
      "stat_block" none false none ⟨0, [], [], []⟩ initState
      = ({ initState with
            last_stat_block_row := some [("attack_skill_1", .vint 3), ("damage_1", .vstr "(D10)+5")]
            last_stat_block_label := some "Stat Block" },
          .error .unboundLocal) := by
  decide

/-- One segment offers at most one alternative, so random.choice has no
freedom there. -/
def segDeterministic (seg : String) : Bool :=
  match segMatch seg with
  | some (_, rest0) => (segOptions (pyStrip rest0)).length ≤ 1
  | none => true

/-- A reactions value whose segments each offer at most one alternative. -/
def reactionsDeterministic (v : PyVal) : Bool :=
  match v with
  | .vstr s => (reactionSegments s).all segDeterministic
  | _ => true

theorem parse_randomize_go_det (segs : List String)
    (h : ∀ seg ∈ segs, segDeterministic seg = true) (cs cs' : List Nat) :
    parse_randomize_reactions.go segs cs = parse_randomize_reactions.go segs cs' := by
  induction segs generalizing cs cs' with
  | nil => rfl
  | cons seg segs ih =>
      have hseg : segDeterministic seg = true := h seg (by simp)
      have htail : ∀ s ∈ segs, segDeterministic s = true := fun s hs => h s (by simp [hs])
      simp only [parse_randomize_reactions.go]
      cases hm : segMatch seg with
      | none => exact ih htail cs cs'
      | some pr =>
          obtain ⟨st0, rest0⟩ := pr
          simp only []
          by_cases hre : pyStrip rest0 = ""
          · simp only [hre, if_pos rfl]
            exact ih htail cs cs'
          · simp only [if_neg hre]
            by_cases hop : segOptions (pyStrip rest0) = []
            · simp only [if_pos hop]
              rw [ih htail cs cs']
            · have hlen : (segOptions (pyStrip rest0)).length ≤ 1 := by
                have := hseg
                unfold segDeterministic at this
                rw [hm] at this
                simpa using this
              have hlen1 : (segOptions (pyStrip rest0)).length = 1 := by
                have hpos : 0 < (segOptions (pyStrip rest0)).length :=
                  List.length_pos.mpr hop
                omega
              obtain ⟨o, ho⟩ := List.length_eq_one.mp hlen1
              simp only [if_neg hop, ho]
              rw [ih htail cs.tail cs'.tail]
              simp [Nat.mod_one]

theorem parse_randomize_reactions_det (v : PyVal)
    (h : reactionsDeterministic v = true) (cs cs' : List Nat) :
    parse_randomize_reactions v cs = parse_randomize_reactions v cs' := by
  cases v with
  | vstr s =>
      unfold parse_randomize_reactions
      by_cases he : pyStrip s = ""
      · simp [he]
      · simp only [if_neg he]
        refine parse_randomize_go_det _ ?_ cs cs'
        unfold reactionsDeterministic at h
        exact List.all_eq_true.mp h
  | vnone => rfl
  | vnan => rfl
  | vbool b => rfl
  | vint n => rfl

/-- Stat-block row whose reactions text offers two alternatives for the
Bloodied status. -/
def twoOptionReactionRow : Dict :=
  [("attack_skill_1", .vint 2), ("damage_1", .vstr "D6"), ("range", .vstr "10m"),
    ("reactions", .vstr "[Bloodied] Flee OR Fight")]

set_option maxRecDepth 4000 in
/-- C6 counterexample: two calls of the formatter with the same table name,
the same row, and even the same session state can return different strings,
because the stat_block branch picks one recovery reaction per status at
random. -/
theorem claim6_formatter_two_calls_differ :
    format_row_for_display "stat_block" twoOptionReactionRow initState [0]
      ≠ format_row_for_display "stat_block" twoOptionReactionRow initState [1] := by
  decide

/-- C6 amended: the formatter is one exact function of the table name, the
row, the session state, and the random reaction choices; in particular two
calls with the same table name, row, and session state return identical
strings whenever each segment of the reactions text of the row offers at most one
alternative, whatever random values the two calls draw. -/
theorem claim6_formatter_deterministic (t : String) (row : Dict) (σ : SState)
    (cs cs' : List Nat) (h : reactionsDeterministic (rowGetN row "reactions") = true) :
    format_row_for_display t row σ cs = format_row_for_display t row σ cs' := by
  unfold format_row_for_display
  rw [parse_randomize_reactions_det (rowGetN row "reactions") h cs cs']

set_option maxRecDepth 4000 in
/-- C6 amended witness: with a single-option reactions text, two calls with
different random draws agree on a concrete stat_block row. -/
theorem claim6_formatter_deterministic_witness :
    format_row_for_display "stat_block"
        [("attack_skill_1", .vint 2), ("damage_1", .vstr "D6"), ("range", .vstr "10m"),
          ("reactions", .vstr "[Bloodied] Flee")] initState [0]
      = format_row_for_display "stat_block"
        [("attack_skill_1", .vint 2), ("damage_1", .vstr "D6"), ("range", .vstr "10m"),
          ("reactions", .vstr "[Bloodied] Flee")] initState [1] :=
  claim6_formatter_deterministic "stat_block"
    [("attack_skill_1", .vint 2), ("damage_1", .vstr "D6"), ("range", .vstr "10m"),
      ("reactions", .vstr "[Bloodied] Flee")] initState [0] [1] (by decide)

/-- C5: whenever the CSV loads and the option-filtered table is non-empty,
a string returned by roll_table is format_row_for_display applied to one row
of the filtered table — the sampled row — under the session state produced
by the pre-formatting side effects. -/
theorem claim5_roll_table_formats_sampled_row (env : Env) (t : String) (g : Option Int)
    (l : Bool) (o : Option String) (oc : Oracle) (σ σ' : SState) (res : String) (df : Df)
    (hdf : envLookup env t = some df) (hne : filterRows t o df ≠ [])
    (hres : roll_table env t g l o oc σ = (σ', .ok res)) :
    ∃ row ∈ filterRows t o df, ∃ σp,
      roll_pre_state t o row (filterRows t o df) (oc.pick % (filterRows t o df).length) oc σ
        = .ok σp
      ∧ format_row_for_display t row σp oc.fmtcs = .ok res := by
  unfold roll_table at hres
  simp only [hdf] at hres
  rw [if_neg hne] at hres
  set rows := filterRows t o df with hrowsdef
  set i := oc.pick % rows.length with hidef
  set row := rows.getD i [] with hrowdef
  split at hres
  · simp at hres
  · rename_i σp hpre
    split at hres
    · simp at hres
    · rename_i result hfmt
      split at hres
      · simp at hres
      · rename_i σr hrole
        simp only [Prod.mk.injEq, Except.ok.injEq] at hres
        obtain ⟨-, hresult⟩ := hres
        subst hresult
        have hlen : 0 < rows.length := List.length_pos.mpr hne
        have hi : i < rows.length := Nat.mod_lt _ hlen
        refine ⟨row, ?_, σp, hpre, hfmt⟩
        rw [hrowdef, List.getD_eq_get rows [] hi]
        exact List.get_mem rows i hi

/-- C5 witness: a concrete one-row table formatted through the generic
title/description branch. -/
theorem claim5_roll_table_formats_sampled_row_witness :
    ∃ row ∈ filterRows "gear" none
        ⟨["title", "description"], [[("title", .vstr "Rope"), ("description", .vstr "Sturdy")]]⟩,
      ∃ σp,
        roll_pre_state "gear" none row
          (filterRows "gear" none
            ⟨["title", "description"], [[("title", .vstr "Rope"), ("description", .vstr "Sturdy")]]⟩)
          (Oracle.pick ⟨0, [], [], []⟩ %
            (filterRows "gear" none
              ⟨["title", "description"], [[("title", .vstr "Rope"), ("description", .vstr "Sturdy")]]⟩).length)
          ⟨0, [], [], []⟩ initState = .ok σp
        ∧ format_row_for_display "gear" row σp (Oracle.fmtcs ⟨0, [], [], []⟩) = .ok "Rope: Sturdy" :=
  claim5_roll_table_formats_sampled_row
    [("gear", ⟨["title", "description"], [[("title", .vstr "Rope"), ("description", .vstr "Sturdy")]]⟩)]
    "gear" none false none ⟨0, [], [], []⟩ initState initState "Rope: Sturdy"
    ⟨["title", "description"], [[("title", .vstr "Rope"), ("description", .vstr "Sturdy")]]⟩
    (by decide) (by decide) (by decide)

theorem remove_persistent_items_log (gid : Int) (ca sa : List String) (σ : SState) :
    (remove_persistent_items gid ca sa σ).log = σ.log := by
  unfold remove_persistent_items
  by_cases h : poolMem σ.persistent gid = false <;> simp [h]

theorem remove_persistent_items_other (gid g' : Int) (ca sa : List String) (σ : SState)
    (h : g' ≠ gid) :
    poolGet (remove_persistent_items gid ca sa σ).persistent g' = poolGet σ.persistent g' := by
  unfold remove_persistent_items
  by_cases hm : poolMem σ.persistent gid = false
  · simp [hm]
  · simp [hm, poolGet_poolSet_ne _ _ _ _ h]

theorem update_last_stat_block_log (gid : Int) (cs : List Nat) (σ : SState) :
    (update_last_stat_block_persistent gid cs σ).log = σ.log := by
  unfold update_last_stat_block_persistent
  repeat' first | rfl | (dsimp only []) | split

theorem update_last_stat_block_other (gid g' : Int) (cs : List Nat) (σ : SState)
    (h : g' ≠ gid) :
    poolGet (update_last_stat_block_persistent gid cs σ).persistent g' =
      poolGet σ.persistent g' := by
  unfold update_last_stat_block_persistent
  repeat' first
    | rfl
    | exact poolGet_poolSet_ne _ _ _ _ h
    | (dsimp only [])
    | split

theorem set_unique_trait_log (row : Dict) (cs : List Nat) (σ : SState) :
    (set_unique_trait_modifiers_from_row row cs σ).log = σ.log := by
  unfold set_unique_trait_modifiers_from_row
  by_cases hab : safe_int (rowGetN row "ability") 0 = -1 <;>
    simp [hab, update_last_stat_block_log, remove_persistent_items_log]

theorem set_unique_trait_other (row : Dict) (cs : List Nat) (σ : SState) (g' : Int)
    (h : g' ≠ 5) :
    poolGet (set_unique_trait_modifiers_from_row row cs σ).persistent g' =
      poolGet σ.persistent g' := by
  unfold set_unique_trait_modifiers_from_row
  by_cases hab : safe_int (rowGetN row "ability") 0 = -1 <;>
    simp [hab, update_last_stat_block_other, remove_persistent_items_other, h]

theorem roll_pre_state_frame (t : String) (o : Option String) (row : Dict)
    (rows : List Dict) (i : Nat) (oc : Oracle) (σ σp : SState)
    (hpre : roll_pre_state t o row rows i oc σ = .ok σp) :
    σp.log = σ.log
    ∧ (∀ g', g' ≠ 5 → poolGet σp.persistent g' = poolGet σ.persistent g')
    ∧ (t ≠ "unique_trait" → σp.persistent = σ.persistent) := by
  unfold roll_pre_state at hpre
  dsimp only [] at hpre
  by_cases h2 : t = "unique_trait"
  · subst h2
    simp only [String.reduceEq, reduceIte, false_and, Bool.false_eq_true,
      Except.ok.injEq] at hpre
    subst hpre
    exact ⟨set_unique_trait_log row oc.ucs σ,
      fun g' hg => set_unique_trait_other row oc.ucs σ g' hg,
      fun hc => absurd rfl hc⟩
  · simp only [if_neg h2] at hpre
    by_cases h1 : t = "stat_block"
    · subst h1
      simp only [String.reduceEq, reduceIte, false_and, Bool.false_eq_true,
        Except.ok.injEq] at hpre
      subst hpre
      exact ⟨rfl, fun g' _ => rfl, fun _ => rfl⟩
    · simp only [if_neg h1] at hpre
      by_cases h3 : t = "size"
      · subst h3
        simp only [String.reduceEq, reduceIte, false_and, Bool.false_eq_true,
          Except.ok.injEq] at hpre
        subst hpre
        exact ⟨rfl, fun g' _ => rfl, fun _ => rfl⟩
      · simp only [if_neg h3] at hpre
        by_cases h4 : t = "creature_intelligence" ∧ rowHas row "value" = true
        · rw [if_pos h4] at hpre
          cases hint : roll_int_from_expression (rowGetN row "value") oc.dice with
          | error e => rw [hint] at hpre; simp at hpre
          | ok n =>
              rw [hint] at hpre
              simp only [Except.ok.injEq] at hpre
              subst hpre
              exact ⟨rfl, fun g' _ => rfl, fun _ => rfl⟩
        · rw [if_neg h4] at hpre
          simp only [Except.ok.injEq] at hpre
          subst hpre
          exact ⟨rfl, fun g' _ => rfl, fun _ => rfl⟩

theorem set_role_modifiers_frame (env : Env) (s : String) (σ σr : SState)
    (h : set_role_modifiers_from_text env s σ = .ok σr) :
    σr.persistent = σ.persistent ∧ σr.log = σ.log := by
  unfold set_role_modifiers_from_text at h
  dsimp only [] at h
  repeat' split at h
  all_goals
    first
      | exact Except.noConfusion h
      | (injection h with h2; subst h2; exact ⟨rfl, rfl⟩)

theorem add_to_persistent_log (g : Option Int) (r : String) (σ : SState) :
    (add_to_persistent g r σ).log = σ.log := by
  cases g <;> rfl

theorem add_to_persistent_none (r : String) (σ : SState) :
    add_to_persistent none r σ = σ := rfl

theorem roll_post_state_log (t : String) (g : Option Int) (l : Bool) (oc : Oracle)
    (result : String) (σr : SState) :
    (roll_post_state t g l oc result σr).log =
      σr.log ++ (if l then [{ text := t ++ ": " ++ result, note := "" }] else []) := by
  unfold roll_post_state
  by_cases hl : l <;>
    by_cases hup : (t = "enemy_role" ∨ t = "size" ∨ t = "creature_intelligence") <;>
      by_cases hut : t = "unique_trait" <;> by_cases hsz : t = "size" <;>
        simp [hl, hup, hut, hsz, add_to_persistent_log, update_last_stat_block_log,
          add_to_log, apply_ite]

theorem roll_post_state_stores (t : String) (g : Option Int) (l : Bool) (oc : Oracle)
    (result : String) (σr : SState) (gid : Int) (hg : g = some gid)
    (hut : t ≠ "unique_trait") :
    (poolGet (roll_post_state t g l oc result σr).persistent gid).getLast? = some result := by
  subst hg
  unfold roll_post_state
  dsimp only []
  rw [if_pos hut]
  by_cases hl : l = true <;>
    simp [hl, add_to_log, add_to_persistent, poolGet_poolSet_self, List.getLast?_concat]

theorem roll_post_state_frame (t : String) (g : Option Int) (l : Bool) (oc : Oracle)
    (result : String) (σr : SState) (hl : l = false) (hg : g = none) :
    (roll_post_state t g l oc result σr).log = σr.log
    ∧ (∀ gid, gid ≠ 5 →
        poolGet (roll_post_state t g l oc result σr).persistent gid
          = poolGet σr.persistent gid)
    ∧ (t ≠ "enemy_role" → t ≠ "size" → t ≠ "creature_intelligence" →
        (roll_post_state t g l oc result σr).persistent = σr.persistent) := by
  subst hl
  subst hg
  refine ⟨?_, ?_, ?_⟩
  · unfold roll_post_state
    by_cases hup : (t = "enemy_role" ∨ t = "size" ∨ t = "creature_intelligence") <;>
      by_cases hut : t = "unique_trait" <;> by_cases hsz : t = "size" <;>
        simp [hup, hut, hsz, add_to_persistent_none, update_last_stat_block_log, apply_ite]
  · intro gid hgid
    unfold roll_post_state
    dsimp only []
    simp only [Bool.false_eq_true, if_false, add_to_persistent_none, ite_self]
    split
    · rw [update_last_stat_block_other _ _ _ _ hgid]
      split <;> rfl
    · split <;> rfl
  · intro h6 h7 h8
    have hup : ¬ (t = "enemy_role" ∨ t = "size" ∨ t = "creature_intelligence") := by
      simp [h6, h7, h8]
    unfold roll_post_state
    dsimp only []
    simp only [Bool.false_eq_true, if_false, add_to_persistent_none, ite_self,
      if_neg hup, if_neg h7]

/-- C7 amended: on a successful roll, log=True appends exactly one mission
log entry whose text is table: result with an empty note; a non-None group
stores the result at the end of the pool of that group for every table except
unique_trait (whose result is deliberately never persisted); and with
log=False and group=None the mission log is unchanged and every pool other
than pool 5 is unchanged, pool 5 itself being untouched unless the table is
one of unique_trait, enemy_role, size, creature_intelligence, which may
rewrite the persisted stat block there. -/
theorem claim7_roll_table_logging_and_pools (env : Env) (t : String) (g : Option Int)
    (l : Bool) (o : Option String) (oc : Oracle) (σ σ' : SState) (res : String) (df : Df)
    (hdf : envLookup env t = some df) (hne : filterRows t o df ≠ [])
    (hres : roll_table env t g l o oc σ = (σ', .ok res)) :
    (l = true → σ'.log = σ.log ++ [{ text := t ++ ": " ++ res, note := "" }])
    ∧ (∀ gid, g = some gid → t ≠ "unique_trait" →
        (poolGet σ'.persistent gid).getLast? = some res)
    ∧ (l = false → g = none →
        σ'.log = σ.log
        ∧ (∀ gid, gid ≠ 5 → poolGet σ'.persistent gid = poolGet σ.persistent gid)
        ∧ (t ≠ "unique_trait" → t ≠ "enemy_role" → t ≠ "size" →
            t ≠ "creature_intelligence" → σ'.persistent = σ.persistent)) := by
  unfold roll_table at hres
  simp only [hdf] at hres
  rw [if_neg hne] at hres
  split at hres
  · simp at hres
  · rename_i σp hpre
    split at hres
    · simp at hres
    · rename_i result hfmt
      split at hres
      · simp at hres
      · rename_i σr hrole
        simp only [Prod.mk.injEq, Except.ok.injEq] at hres
        obtain ⟨hσ, hresult⟩ := hres
        subst hresult
        subst hσ
        have hroleframe : σr.persistent = σp.persistent ∧ σr.log = σp.log := by
          by_cases he : t = "enemy_role"
          · rw [if_pos he] at hrole
            exact set_role_modifiers_frame env result σp σr hrole
          · rw [if_neg he] at hrole
            injection hrole with h'
            subst h'
            exact ⟨rfl, rfl⟩
        have hpreframe := roll_pre_state_frame t o _ _ _ oc σ σp hpre
        refine ⟨?_, ?_, ?_⟩
        · intro hl
          subst hl
          rw [roll_post_state_log]
          simp [hroleframe.2, hpreframe.1]
        · intro gid hg hut
          exact roll_post_state_stores t g l oc result σr gid hg hut
        · intro hl hg
          obtain ⟨hplog, hppools, hppers⟩ := roll_post_state_frame t g l oc result σr hl hg
          refine ⟨?_, ?_, ?_⟩
          · rw [hplog, hroleframe.2, hpreframe.1]
          · intro gid hgid
            rw [hppools gid hgid, hroleframe.1, hpreframe.2.1 gid hgid]
          · intro h5 h6 h7 h8
            rw [hppers h6 h7 h8, hroleframe.1, hpreframe.2.2 h5]

/-- C7 counterexample: a successful unique_trait roll called with the
non-None group 3 does not store its formatted result in pool 3 — roll_table
deliberately never persists a unique trait — so the persistent dict stays
empty. -/
theorem claim7_unique_trait_never_persisted :
    (roll_table [("unique_trait", ⟨["description"], [[("description", .vstr "Spiky")]]⟩)]
        "unique_trait" (some 3) false none ⟨0, [], [], []⟩ initState).2 = .ok "Spiky"
    ∧ (roll_table [("unique_trait", ⟨["description"], [[("description", .vstr "Spiky")]]⟩)]
        "unique_trait" (some 3) false none ⟨0, [], [], []⟩ initState).1.persistent = [] := by
  constructor <;> decide

/-- C7 amended witness: a logged roll of a concrete one-row table appends
exactly its table: result entry to the mission log. -/
theorem claim7_roll_table_logging_and_pools_witness :
    ((roll_table [("gear", ⟨["title", "description"],
          [[("title", .vstr "Rope"), ("description", .vstr "Sturdy")]]⟩)]
        "gear" none true none ⟨0, [], [], []⟩ initState).1).log
      = initState.log ++ [{ text := "gear" ++ ": " ++ "Rope: Sturdy", note := "" }] :=
  (claim7_roll_table_logging_and_pools
    [("gear", ⟨["title", "description"],
      [[("title", .vstr "Rope"), ("description", .vstr "Sturdy")]]⟩)]
    "gear" none true none ⟨0, [], [], []⟩ initState
    { initState with log := [{ text := "gear: Rope: Sturdy", note := "" }] }
    "Rope: Sturdy"
    ⟨["title", "description"], [[("title", .vstr "Rope"), ("description", .vstr "Sturdy")]]⟩
    (by decide) (by decide) (by decide)).1 rfl

/-- A hex record carrying all nine fields of the map schema. -/
def completeHex (v : Dict) : Bool :=
  ["name", "biome", "terrain", "visited", "party", "site", "special",
    "notes", "last"].all (fun k => rowHas v k)

theorem key_decimal_roundtrip : ∀ n : Nat, n < 97 →
    pyParseInt (toString ((n : Int))) = some ((n : Int)) := by decide

theorem hexSetDefaults_complete (v : Dict) (h : completeHex v = true) :
    hexSetDefaults v = v := by
  unfold completeHex at h
  simp only [List.all_cons, List.all_nil, Bool.and_eq_true, Bool.and_true] at h
  obtain ⟨h1, h2, h3, h4, h5, h6, h7, h8, h9⟩ := h
  simp [hexSetDefaults, h1, h2, h3, h4, h5, h6, h7, h8, h9]

theorem hexMapSet_absent (a : List (Int × Dict)) (k : Int) (v : Dict)
    (h : hexMapMem a k = false) : hexMapSet a k v = a ++ [(k, v)] := by
  induction a with
  | nil => rfl
  | cons p rest ih =>
      obtain ⟨k', v'⟩ := p
      by_cases hk : k' = k
      · subst hk
        simp [hexMapMem] at h
      · simp only [hexMapMem, if_neg hk] at h
        simp [hexMapSet, hk, ih h]

theorem hexMapMem_append_single (a : List (Int × Dict)) (k x : Int) (v : Dict) :
    hexMapMem (a ++ [(k, v)]) x = (hexMapMem a x || decide (k = x)) := by
  induction a with
  | nil => simp [hexMapMem]
  | cons p rest ih =>
      obtain ⟨k', v'⟩ := p
      by_cases hk : k' = x <;> simp [hexMapMem, hk, ih]

theorem hexMapMem_eq_true_of_mem (a : List (Int × Dict)) (k : Int)
    (h : k ∈ a.map Prod.fst) : hexMapMem a k = true := by
  induction a with
  | nil => simp at h
  | cons p rest ih =>
      obtain ⟨k', v'⟩ := p
      by_cases hk : k' = k
      · simp [hexMapMem, hk]
      · simp only [List.map_cons, List.mem_cons] at h
        rcases h with h | h
        · exact absurd h.symm hk
        · simp [hexMapMem, hk, ih h]

theorem map_import_entries_exported (m : List (Int × Dict)) (acc : List (Int × Dict))
    (hrange : ∀ p ∈ m, 1 ≤ p.1 ∧ p.1 ≤ 96)
    (hcomp : ∀ p ∈ m, completeHex p.2 = true)
    (hnodup : (m.map Prod.fst).Nodup)
    (hdisj : ∀ p ∈ m, hexMapMem acc p.1 = false) :
    map_import_entries acc (map_export_json m) = some (acc ++ m) := by
  induction m generalizing acc with
  | nil => simp [map_export_json, map_import_entries]
  | cons p rest ih =>
      obtain ⟨k, v⟩ := p
      have hk : 1 ≤ k ∧ k ≤ 96 := hrange (k, v) (by simp)
      have hparse : pyParseInt (toString k) = some k := by
        have hnn : (0 : Int) ≤ k := by omega
        have hkn : k = ((k.toNat : Nat) : Int) := (Int.toNat_of_nonneg hnn).symm
        have h97 : k.toNat < 97 := by omega
        rw [hkn]
        exact key_decimal_roundtrip k.toNat h97
      simp only [map_export_json, List.map_cons, map_import_entries, hparse]
      rw [if_pos (by exact ⟨hk.1, by simpa [MAP_HEX_COUNT] using hk.2⟩)]
      rw [hexSetDefaults_complete v (hcomp (k, v) (by simp))]
      rw [hexMapSet_absent acc k v (hdisj (k, v) (by simp))]
      have hnods : k ∉ List.map Prod.fst rest ∧ (List.map Prod.fst rest).Nodup := by
        rw [show List.map Prod.fst ((k, v) :: rest) = k :: List.map Prod.fst rest from rfl,
          List.nodup_cons] at hnodup
        exact hnodup
      have hside : ∀ p ∈ rest, hexMapMem (acc ++ [(k, v)]) p.1 = false := by
        intro p hp
        rw [hexMapMem_append_single]
        have h1 : hexMapMem acc p.1 = false := hdisj p (by simp [hp])
        have h2 : k ≠ p.1 := by
          intro hkp
          have hm : p.1 ∈ rest.map Prod.fst := List.mem_map_of_mem Prod.fst hp
          rw [← hkp] at hm
          exact hnods.1 hm
        simp [h1, h2]
      have hrest := ih (acc ++ [(k, v)]) (fun p hp => hrange p (by simp [hp]))
        (fun p hp => hcomp p (by simp [hp])) hnods.2 hside
      rw [show map_export_json rest = List.map (fun p => (toString p.1, p.2)) rest from rfl]
        at hrest
      rw [hrest, List.append_assoc]
      rfl

theorem mapFillMissing_complete (acc : List (Int × Dict))
    (hall : ∀ i : Nat, i < 96 → hexMapMem acc ((i : Int) + 1) = true) :
    mapFillMissing acc = acc := by
  unfold mapFillMissing
  have key : ∀ (l : List Nat) (a : List (Int × Dict)),
      (∀ i ∈ l, hexMapMem a ((i : Int) + 1) = true) →
        l.foldl (fun (a : List (Int × Dict)) (i : Nat) => if hexMapMem a ((i : Int) + 1) then a
          else a ++ [((i : Int) + 1, mapDefaultHex)]) a = a := by
    intro l
    induction l with
    | nil => intro a _; rfl
    | cons x xs ih =>
        intro a h
        rw [List.foldl_cons, if_pos (h x (by simp))]
        exact ih a (fun i hi => h i (by simp [hi]))
  exact key (List.range 96) acc (fun i hi => hall i (List.mem_range.mp hi))

/-- C8: for a hex map whose keys are exactly 1..96 and whose records carry
all nine fields, the JSON import of the JSON export restores the map exactly:
the decimal string keys parse back to the hex ids, every setdefault is a
no-op on complete records, and the fill loop finds nothing missing. -/
theorem claim8_map_export_import_roundtrip (m : List (Int × Dict))
    (hnodup : (m.map Prod.fst).Nodup)
    (hrange : ∀ p ∈ m, 1 ≤ p.1 ∧ p.1 ≤ 96)
    (hcomp : ∀ p ∈ m, completeHex p.2 = true)
    (hcover : ∀ k : Int, 1 ≤ k → k ≤ 96 → k ∈ m.map Prod.fst) :
    map_import_json (map_export_json m) = some m := by
  unfold map_import_json
  rw [map_import_entries_exported m [] hrange hcomp hnodup (fun p _ => rfl)]
  show some (mapFillMissing ([] ++ m)) = some m
  rw [List.nil_append, mapFillMissing_complete m (fun i _ =>
    hexMapMem_eq_true_of_mem m _ (hcover ((i : Int) + 1) (by omega) (by omega)))]

/-- Default-valued hex map over ids 1..96, the shape ensure_map_state
creates. -/
def fullDefaultMap : List (Int × Dict) :=
  (List.range 96).map (fun i => ((i : Int) + 1, mapDefaultHex))

/-- C8 witness: the round trip restores the concrete full default map. -/
theorem claim8_map_export_import_roundtrip_witness :
    map_import_json (map_export_json fullDefaultMap) = some fullDefaultMap :=
  claim8_map_export_import_roundtrip fullDefaultMap (by decide) (by decide) (by decide)
    (by
      intro k h1 h2
      have hkn : k.toNat - 1 < 96 := by omega
      have heq : ((k.toNat - 1 : Nat) : Int) + 1 = k := by omega
      have hmem := List.mem_map_of_mem (fun i : Nat => ((i : Int) + 1, mapDefaultHex))
        (List.mem_range.mpr hkn)
      have hmem2 : ((((k.toNat - 1 : Nat) : Int) + 1, mapDefaultHex))
          ∈ List.map (fun i : Nat => ((i : Int) + 1, mapDefaultHex)) (List.range 96) := hmem
      rw [heq] at hmem2
      exact List.mem_map_of_mem Prod.fst hmem2)

/-- Count of ones among the first i dice: the rerolls consumed before
position i when the budget suffices. -/
def onesBefore (l : List Nat) (i : Nat) : Nat :=
  (l.take i).countP (fun x => x = 1)

theorem headD_eq_getD_zero (l : List Nat) (d : Nat) : l.headD d = l.getD 0 d := by
  cases l <;> rfl

theorem tail_getD (l : List Nat) (n d : Nat) : l.tail.getD n d = l.getD (n + 1) d := by
  cases l <;> simp [List.getD]

theorem onesBefore_cons_succ (x : Nat) (xs : List Nat) (i : Nat) :
    onesBefore (x :: xs) (i + 1) = onesBefore xs i + (if x = 1 then 1 else 0) := by
  simp [onesBefore, List.take_succ_cons, List.countP_cons]

theorem onesBefore_zero (l : List Nat) : onesBefore l 0 = 0 := rfl

theorem applyRerolls_length (orig : List Nat) (b : Nat) (fresh : List Nat) :
    (applyRerolls orig b fresh).length = orig.length := by
  induction orig generalizing b fresh with
  | nil => rfl
  | cons x xs ih =>
      unfold applyRerolls
      by_cases hx : x = 1 ∧ b > 0
      · rw [if_pos hx]
        simp [ih]
      · rw [if_neg hx]
        simp [ih]

theorem applyRerolls_get (orig : List Nat) (b : Nat) (fresh : List Nat) (i : Nat)
    (h : i < orig.length) :
    (orig.get ⟨i, h⟩ ≠ 1 → (applyRerolls orig b fresh).getD i 0 = orig.get ⟨i, h⟩)
    ∧ (orig.get ⟨i, h⟩ = 1 →
        (onesBefore orig i < b →
          (applyRerolls orig b fresh).getD i 0 = 1 + fresh.getD (onesBefore orig i) 0 % 6)
        ∧ (b ≤ onesBefore orig i → (applyRerolls orig b fresh).getD i 0 = 1)) := by
  induction orig generalizing b fresh i with
  | nil => simp at h
  | cons x xs ih =>
      cases i with
      | zero =>
          unfold applyRerolls
          by_cases hx : x = 1 ∧ b > 0
          · rw [if_pos hx]
            refine ⟨fun hne => absurd hx.1 hne, fun _ => ⟨fun _ => ?_, fun hb => ?_⟩⟩
            · rw [onesBefore_zero]
              cases fresh <;> simp
            · rw [onesBefore_zero] at hb
              omega
          · rw [if_neg hx]
            refine ⟨fun _ => by simp, fun h1 => ⟨fun hlt => ?_, fun _ => ?_⟩⟩
            case neg.refine_2 =>
              have hx1 : x = 1 := by simpa using h1
              simp [hx1]
            have hb0 : ¬ b > 0 := fun hb => hx ⟨by simpa using h1, hb⟩
            rw [onesBefore_zero] at hlt
            omega
      | succ i' =>
          have hx' : i' < xs.length := by simpa using h
          unfold applyRerolls
          by_cases hx : x = 1 ∧ b > 0
          · rw [if_pos hx]
            have hones : onesBefore (x :: xs) (i' + 1) = onesBefore xs i' + 1 := by
              simp [onesBefore_cons_succ, hx.1]
            have spec := ih (b - 1) fresh.tail i' hx'
            refine ⟨fun hne => ?_, fun h1 => ⟨fun hlt => ?_, fun hge => ?_⟩⟩
            · simpa using spec.1 (by simpa using hne)
            · rw [hones] at hlt
              have hr := (spec.2 (by simpa using h1)).1 (by omega)
              rw [tail_getD] at hr
              simpa [hones] using hr
            · rw [hones] at hge
              simpa using (spec.2 (by simpa using h1)).2 (by omega)
          · rw [if_neg hx]
            have spec := ih b fresh i' hx'
            refine ⟨fun hne => ?_, fun h1 => ⟨fun hlt => ?_, fun hge => ?_⟩⟩
            · simpa using spec.1 (by simpa using hne)
            · by_cases hx1 : x = 1
              · have hb0 : ¬ b > 0 := fun hb => hx ⟨hx1, hb⟩
                rw [onesBefore_cons_succ] at hlt
                omega
              · have hones : onesBefore (x :: xs) (i' + 1) = onesBefore xs i' := by
                  simp [onesBefore_cons_succ, hx1]
                rw [hones] at hlt
                simpa [hones] using (spec.2 (by simpa using h1)).1 hlt
            · by_cases hx1 : x = 1
              · have hb0 : ¬ b > 0 := fun hb => hx ⟨hx1, hb⟩
                simpa using (spec.2 (by simpa using h1)).2 (by omega)
              · have hones : onesBefore (x :: xs) (i' + 1) = onesBefore xs i' := by
                  simp [onesBefore_cons_succ, hx1]
                rw [hones] at hge
                simpa using (spec.2 (by simpa using h1)).2 hge

/-- C10: roll_hacking draws a difficulty in 1..6 (every value reachable),
rolls exactly that many six-sided dice, holds a reroll budget of 1 for
SuccessfulRoll plus 1 for Cypher plus 2 for BlackCypher, rerolls each die
showing a one at most once — exactly the ones whose preceding count of ones
is below the budget, each replaced by one fresh six-sided die — and the
status line of the returned text reports success exactly when no die of the
final pool shows a one. -/
theorem claim10_roll_hacking_mechanics (flags : List String) (r : HackRand) (σ : SState) :
    (1 ≤ hackDifficulty r ∧ hackDifficulty r ≤ 6)
    ∧ (∀ k, 1 ≤ k → k ≤ 6 → ∃ r' : HackRand, hackDifficulty r' = k)
    ∧ (hackOrigRolls r).length = hackDifficulty r
    ∧ (∀ x ∈ hackOrigRolls r, 1 ≤ x ∧ x ≤ 6)
    ∧ hackBudget flags = (if "SuccessfulRoll" ∈ flags then 1 else 0)
        + (if "Cypher" ∈ flags then 1 else 0) + (if "BlackCypher" ∈ flags then 2 else 0)
    ∧ (hackFinalRolls flags r).length = (hackOrigRolls r).length
    ∧ (∀ i, ∀ h : i < (hackOrigRolls r).length,
        ((hackOrigRolls r).get ⟨i, h⟩ ≠ 1 →
          (hackFinalRolls flags r).getD i 0 = (hackOrigRolls r).get ⟨i, h⟩)
        ∧ ((hackOrigRolls r).get ⟨i, h⟩ = 1 →
            (onesBefore (hackOrigRolls r) i < hackBudget flags →
              (hackFinalRolls flags r).getD i 0
                = 1 + r.redice.getD (onesBefore (hackOrigRolls r) i) 0 % 6)
            ∧ (hackBudget flags ≤ onesBefore (hackOrigRolls r) i →
              (hackFinalRolls flags r).getD i 0 = 1)))
    ∧ (roll_hacking flags r σ).2 = String.intercalate "\n" (hackLines flags r)
    ∧ (hackLines flags r).getD 4 ""
        = (if (hackFinalRolls flags r).all (fun x => x ≠ 1)
           then "🟢 **Success! System unlocked.**"
           else "🔴 **Failure! System locks.**")
    ∧ ((hackFinalRolls flags r).all (fun x => x ≠ 1) = true ↔
        ∀ x ∈ hackFinalRolls flags r, x ≠ 1) := by
  refine ⟨⟨?_, ?_⟩, ?_, ?_, ?_, rfl, ?_, ?_, rfl, rfl, ?_⟩
  · unfold hackDifficulty
    omega
  · have := Nat.mod_lt r.dpick (show 0 < 6 by decide)
    unfold hackDifficulty
    omega
  · intro k h1 h2
    refine ⟨⟨k - 1, [], []⟩, ?_⟩
    show 1 + (k - 1) % 6 = k
    rw [Nat.mod_eq_of_lt (by omega)]
    omega
  · simp [hackOrigRolls]
  · intro x hx
    obtain ⟨i, -, rfl⟩ := List.mem_map.mp hx
    have := Nat.mod_lt (r.dice.getD i 0) (show 0 < 6 by decide)
    omega
  · exact applyRerolls_length (hackOrigRolls r) (hackBudget flags) r.redice
  · intro i h
    exact applyRerolls_get (hackOrigRolls r) (hackBudget flags) r.redice i h
  · simp [List.all_eq_true]

/-- C10 witness: with the Cypher flag, a difficulty-one pool showing a
single one consumes the reroll and takes the value of the fresh die. -/
theorem claim10_roll_hacking_mechanics_witness :
    (hackFinalRolls ["Cypher"] ⟨0, [0], [3]⟩).getD 0 0
      = 1 + (HackRand.redice ⟨0, [0], [3]⟩).getD
          (onesBefore (hackOrigRolls ⟨0, [0], [3]⟩) 0) 0 % 6 :=
  (((claim10_roll_hacking_mechanics ["Cypher"] ⟨0, [0], [3]⟩
      initState).2.2.2.2.2.2.1 0 (by decide)).2 (by decide)).1 (by decide)
